import Mathlib

/-!
A shallow embedding of the `php-parser-rs` front end: the `ByteString` debug
rendering (`trunk_lexer/src/byte_string.rs`), the token model and its
`Display` stringification (`src/lexer/token.rs`), and the hand-written
recursive-descent / Pratt parser (`src/parser/mod.rs`).

The repository's `src/parser/internal` modules (precedence table, parser
state, AST type declarations, error type, token-expectation macros) are not
part of the available sources; those parts are modelled from the
specification and are marked `Modelled from the spec:` on each definition.
Everything else is translated directly from the Rust sources.

Machine integers appear only as byte values; bytes are modelled as `Nat`
(the `u8` ranges of the source are kept as explicit interval tests).
Recursion in the parser is made total with an explicit fuel parameter; fuel
exhaustion is reported through the dedicated error `ParseError.OutOfFuel`,
an artifact of the embedding that no source path produces.
-/

namespace Php

/-- Byte strings (`ByteString` wraps `Vec<u8>`); a byte is a `Nat` < 256 in
every token produced by the lexer. -/
abbrev BStr := List Nat

/-- The byte sequence of an ASCII string literal, used to spell out the
fixed rendering fragments of the Rust sources. -/
def asciiBytes (s : String) : List Nat := s.toList.map Char.toNat

/-- Lowercase hexadecimal digit, as produced by the Rust format
specifier in `write!(f, "\\x\x7b:02x\x7d", b)`. -/
def hexDigit (n : Nat) : Nat := if n < 10 then 48 + n else 87 + n

/-- One iteration of the loop of `impl Debug for ByteString`
(`byte_string.rs` lines 24-31): byte 0 prints `\0`; newline, carriage
return and tab print via `escape_ascii` as `\n`, `\r`, `\t`; bytes in
`0x01..=0x19` and `0x7f..=0xff` print as `\xNN` with lowercase hex; any
other byte prints verbatim. -/
def debugEscapeByte (b : Nat) : List Nat :=
  if b = 0 then [92, 48]
  else if b = 10 then [92, 110]
  else if b = 13 then [92, 114]
  else if b = 9 then [92, 116]
  else if (1 ≤ b ∧ b ≤ 0x19) ∨ (0x7f ≤ b ∧ b ≤ 0xff) then
    [92, 120, hexDigit (b / 16), hexDigit (b % 16)]
  else [b]

/-- `impl Debug for ByteString`: a double quote, the escaped bytes, and a
closing double quote (`byte_string.rs` lines 21-35). The result is the byte
sequence of the printed text. -/
def debugByteString (bs : BStr) : List Nat :=
  34 :: (bs.map debugEscapeByte).flatten ++ [34]

/-- `DocStringKind` (declared in the lexer state module, not among the
available sources; the spec's §4.2 heredoc/nowdoc distinction). -/
inductive DocStringKind where
  | Heredoc
  | Nowdoc
  deriving DecidableEq, BEq, Repr

/-- `DocStringIndentationKind` from `token.rs`. -/
inductive DocStringIndentationKind where
  | Space
  | Tab
  | None
  | Both
  deriving DecidableEq, BEq, Repr

/-- `OpenTagKind` from `token.rs`. -/
inductive OpenTagKind where
  | Full
  deriving DecidableEq, BEq, Repr

/-- `Span` = `(usize, usize)` from `token.rs`. -/
abbrev Span := Nat × Nat

/-- `TokenKind` from `token.rs` (the parser in `mod.rs` names the heredoc
delimiters `StartHeredoc`/`EndHeredoc` and the comment kinds `Comment`;
they correspond to `StartDocString`/`EndDocString` and the four comment
constructors of this, the token model actually present in the sources). -/
inductive TokenKind where
  | Self_
  | Parent
  | Backtick
  | StartDocString (label : BStr) (kind : DocStringKind)
  | EndDocString (label : BStr) (ik : DocStringIndentationKind) (amount : Nat)
  | From
  | Print
  | Dollar
  | HaltCompiler
  | Readonly
  | Global
  | Abstract
  | Ampersand
  | AmpersandEquals
  | And
  | AndEqual
  | Array
  | ArrayCast
  | Arrow
  | NullsafeArrow
  | At
  | As
  | Asterisk
  | Attribute
  | Bang
  | BangEquals
  | AngledLeftRight
  | BangDoubleEquals
  | Spaceship
  | BoolCast
  | BooleanCast
  | BooleanAnd
  | BooleanOr
  | Break
  | Callable
  | Caret
  | CaretEquals
  | Case
  | Catch
  | Class
  | ClassConstant
  | TraitConstant
  | FunctionConstant
  | MethodConstant
  | LineConstant
  | FileConstant
  | Clone
  | MinusEquals
  | CloseTag
  | Coalesce
  | CoalesceEqual
  | AsteriskEqual
  | Colon
  | Comma
  | SingleLineComment (b : BStr)
  | HashMarkComment (b : BStr)
  | MultiLineComment (b : BStr)
  | DocumentComment (b : BStr)
  | ConcatEqual
  | Const
  | LiteralString (b : BStr)
  | Continue
  | CurlyOpen
  | Declare
  | Decrement
  | Default
  | DirConstant
  | DivEqual
  | Do
  | DocOpen (b : BStr)
  | DollarLeftBrace
  | Dot
  | DotEquals
  | DoubleArrow
  | DoubleCast
  | RealCast
  | FloatCast
  | DoubleColon
  | DoubleEquals
  | DoubleQuote
  | Echo
  | Ellipsis
  | Else
  | ElseIf
  | Empty
  | EndDeclare
  | EndFor
  | EndForeach
  | EndIf
  | EndSwitch
  | EndWhile
  | Enum
  | Eof
  | Equals
  | Extends
  | False
  | Final
  | Finally
  | LiteralFloat (b : BStr)
  | Fn
  | For
  | Foreach
  | FullyQualifiedIdentifier (b : BStr)
  | Function
  | Goto
  | GreaterThan
  | GreaterThanEquals
  | Identifier (b : BStr)
  | If
  | Implements
  | Include
  | IncludeOnce
  | Increment
  | InlineHtml (b : BStr)
  | Instanceof
  | Insteadof
  | Eval
  | Exit
  | Unset
  | Isset
  | List
  | LiteralInteger (b : BStr)
  | IntCast
  | IntegerCast
  | Interface
  | LeftBrace
  | LeftBracket
  | LeftParen
  | LeftShift
  | LeftShiftEquals
  | RightShift
  | RightShiftEquals
  | LessThan
  | LessThanEquals
  | Match
  | Minus
  | Namespace
  | NamespaceSeparator
  | NamespaceConstant
  | New
  | Null
  | ObjectCast
  | UnsetCast
  | OpenTag (kind : OpenTagKind)
  | Percent
  | PercentEquals
  | Pipe
  | PipeEquals
  | Plus
  | PlusEquals
  | Pow
  | PowEquals
  | Private
  | Protected
  | Public
  | QualifiedIdentifier (b : BStr)
  | Question
  | QuestionColon
  | Require
  | RequireOnce
  | Return
  | RightBrace
  | RightBracket
  | RightParen
  | SemiColon
  | Slash
  | SlashEquals
  | Static
  | StringCast
  | BinaryCast
  | StringPart (b : BStr)
  | Switch
  | Throw
  | Trait
  | TripleEquals
  | True
  | Try
  | Use
  | Var
  | Variable (b : BStr)
  | Yield
  | While
  | BitwiseNot
  | LogicalAnd
  | LogicalOr
  | LogicalXor

set_option maxHeartbeats 3200000 in
/-- Structural equality on `TokenKind` (the derived `PartialEq` of
`token.rs`). Written by hand because deriving `DecidableEq` for a
170-constructor inductive exceeds the elaborator's resources. -/
def TokenKind.beq : TokenKind → TokenKind → Bool
  | .Self_, .Self_ => true
  | .Parent, .Parent => true
  | .Backtick, .Backtick => true
  | .StartDocString a0 a1, .StartDocString b0 b1 => a0 == b0 && a1 == b1
  | .EndDocString a0 a1 a2, .EndDocString b0 b1 b2 => a0 == b0 && a1 == b1 && a2 == b2
  | .From, .From => true
  | .Print, .Print => true
  | .Dollar, .Dollar => true
  | .HaltCompiler, .HaltCompiler => true
  | .Readonly, .Readonly => true
  | .Global, .Global => true
  | .Abstract, .Abstract => true
  | .Ampersand, .Ampersand => true
  | .AmpersandEquals, .AmpersandEquals => true
  | .And, .And => true
  | .AndEqual, .AndEqual => true
  | .Array, .Array => true
  | .ArrayCast, .ArrayCast => true
  | .Arrow, .Arrow => true
  | .NullsafeArrow, .NullsafeArrow => true
  | .At, .At => true
  | .As, .As => true
  | .Asterisk, .Asterisk => true
  | .Attribute, .Attribute => true
  | .Bang, .Bang => true
  | .BangEquals, .BangEquals => true
  | .AngledLeftRight, .AngledLeftRight => true
  | .BangDoubleEquals, .BangDoubleEquals => true
  | .Spaceship, .Spaceship => true
  | .BoolCast, .BoolCast => true
  | .BooleanCast, .BooleanCast => true
  | .BooleanAnd, .BooleanAnd => true
  | .BooleanOr, .BooleanOr => true
  | .Break, .Break => true
  | .Callable, .Callable => true
  | .Caret, .Caret => true
  | .CaretEquals, .CaretEquals => true
  | .Case, .Case => true
  | .Catch, .Catch => true
  | .Class, .Class => true
  | .ClassConstant, .ClassConstant => true
  | .TraitConstant, .TraitConstant => true
  | .FunctionConstant, .FunctionConstant => true
  | .MethodConstant, .MethodConstant => true
  | .LineConstant, .LineConstant => true
  | .FileConstant, .FileConstant => true
  | .Clone, .Clone => true
  | .MinusEquals, .MinusEquals => true
  | .CloseTag, .CloseTag => true
  | .Coalesce, .Coalesce => true
  | .CoalesceEqual, .CoalesceEqual => true
  | .AsteriskEqual, .AsteriskEqual => true
  | .Colon, .Colon => true
  | .Comma, .Comma => true
  | .SingleLineComment a0, .SingleLineComment b0 => a0 == b0
  | .HashMarkComment a0, .HashMarkComment b0 => a0 == b0
  | .MultiLineComment a0, .MultiLineComment b0 => a0 == b0
  | .DocumentComment a0, .DocumentComment b0 => a0 == b0
  | .ConcatEqual, .ConcatEqual => true
  | .Const, .Const => true
  | .LiteralString a0, .LiteralString b0 => a0 == b0
  | .Continue, .Continue => true
  | .CurlyOpen, .CurlyOpen => true
  | .Declare, .Declare => true
  | .Decrement, .Decrement => true
  | .Default, .Default => true
  | .DirConstant, .DirConstant => true
  | .DivEqual, .DivEqual => true
  | .Do, .Do => true
  | .DocOpen a0, .DocOpen b0 => a0 == b0
  | .DollarLeftBrace, .DollarLeftBrace => true
  | .Dot, .Dot => true
  | .DotEquals, .DotEquals => true
  | .DoubleArrow, .DoubleArrow => true
  | .DoubleCast, .DoubleCast => true
  | .RealCast, .RealCast => true
  | .FloatCast, .FloatCast => true
  | .DoubleColon, .DoubleColon => true
  | .DoubleEquals, .DoubleEquals => true
  | .DoubleQuote, .DoubleQuote => true
  | .Echo, .Echo => true
  | .Ellipsis, .Ellipsis => true
  | .Else, .Else => true
  | .ElseIf, .ElseIf => true
  | .Empty, .Empty => true
  | .EndDeclare, .EndDeclare => true
  | .EndFor, .EndFor => true
  | .EndForeach, .EndForeach => true
  | .EndIf, .EndIf => true
  | .EndSwitch, .EndSwitch => true
  | .EndWhile, .EndWhile => true
  | .Enum, .Enum => true
  | .Eof, .Eof => true
  | .Equals, .Equals => true
  | .Extends, .Extends => true
  | .False, .False => true
  | .Final, .Final => true
  | .Finally, .Finally => true
  | .LiteralFloat a0, .LiteralFloat b0 => a0 == b0
  | .Fn, .Fn => true
  | .For, .For => true
  | .Foreach, .Foreach => true
  | .FullyQualifiedIdentifier a0, .FullyQualifiedIdentifier b0 => a0 == b0
  | .Function, .Function => true
  | .Goto, .Goto => true
  | .GreaterThan, .GreaterThan => true
  | .GreaterThanEquals, .GreaterThanEquals => true
  | .Identifier a0, .Identifier b0 => a0 == b0
  | .If, .If => true
  | .Implements, .Implements => true
  | .Include, .Include => true
  | .IncludeOnce, .IncludeOnce => true
  | .Increment, .Increment => true
  | .InlineHtml a0, .InlineHtml b0 => a0 == b0
  | .Instanceof, .Instanceof => true
  | .Insteadof, .Insteadof => true
  | .Eval, .Eval => true
  | .Exit, .Exit => true
  | .Unset, .Unset => true
  | .Isset, .Isset => true
  | .List, .List => true
  | .LiteralInteger a0, .LiteralInteger b0 => a0 == b0
  | .IntCast, .IntCast => true
  | .IntegerCast, .IntegerCast => true
  | .Interface, .Interface => true
  | .LeftBrace, .LeftBrace => true
  | .LeftBracket, .LeftBracket => true
  | .LeftParen, .LeftParen => true
  | .LeftShift, .LeftShift => true
  | .LeftShiftEquals, .LeftShiftEquals => true
  | .RightShift, .RightShift => true
  | .RightShiftEquals, .RightShiftEquals => true
  | .LessThan, .LessThan => true
  | .LessThanEquals, .LessThanEquals => true
  | .Match, .Match => true
  | .Minus, .Minus => true
  | .Namespace, .Namespace => true
  | .NamespaceSeparator, .NamespaceSeparator => true
  | .NamespaceConstant, .NamespaceConstant => true
  | .New, .New => true
  | .Null, .Null => true
  | .ObjectCast, .ObjectCast => true
  | .UnsetCast, .UnsetCast => true
  | .OpenTag a0, .OpenTag b0 => a0 == b0
  | .Percent, .Percent => true
  | .PercentEquals, .PercentEquals => true
  | .Pipe, .Pipe => true
  | .PipeEquals, .PipeEquals => true
  | .Plus, .Plus => true
  | .PlusEquals, .PlusEquals => true
  | .Pow, .Pow => true
  | .PowEquals, .PowEquals => true
  | .Private, .Private => true
  | .Protected, .Protected => true
  | .Public, .Public => true
  | .QualifiedIdentifier a0, .QualifiedIdentifier b0 => a0 == b0
  | .Question, .Question => true
  | .QuestionColon, .QuestionColon => true
  | .Require, .Require => true
  | .RequireOnce, .RequireOnce => true
  | .Return, .Return => true
  | .RightBrace, .RightBrace => true
  | .RightBracket, .RightBracket => true
  | .RightParen, .RightParen => true
  | .SemiColon, .SemiColon => true
  | .Slash, .Slash => true
  | .SlashEquals, .SlashEquals => true
  | .Static, .Static => true
  | .StringCast, .StringCast => true
  | .BinaryCast, .BinaryCast => true
  | .StringPart a0, .StringPart b0 => a0 == b0
  | .Switch, .Switch => true
  | .Throw, .Throw => true
  | .Trait, .Trait => true
  | .TripleEquals, .TripleEquals => true
  | .True, .True => true
  | .Try, .Try => true
  | .Use, .Use => true
  | .Var, .Var => true
  | .Variable a0, .Variable b0 => a0 == b0
  | .Yield, .Yield => true
  | .While, .While => true
  | .BitwiseNot, .BitwiseNot => true
  | .LogicalAnd, .LogicalAnd => true
  | .LogicalOr, .LogicalOr => true
  | .LogicalXor, .LogicalXor => true
  | _, _ => false

instance : BEq TokenKind := ⟨TokenKind.beq⟩

/-- `Token` from `token.rs`. -/
structure Token where
  kind : TokenKind
  span : Span

/-- `Token::default()`: an `Eof` token at span `(0, 0)`. -/
def defaultToken : Token := ⟨.Eof, (0, 0)⟩

/-- Modelled from the spec: `Display` of the parser crate's `ByteString`
(its impl is not among the available sources) prints the raw bytes
(§6: "Printed representation of identifiers, variables, and literals is
their raw bytes"). The display output is itself a byte sequence. -/
def displayByteString (b : BStr) : List Nat := b

/-- `impl Display for TokenKind` from `token.rs` lines 250-455, as the byte
sequence of the printed text. -/
def displayTokenKind : TokenKind → List Nat
  | .Self_ => asciiBytes "self"
  | .Parent => asciiBytes "parent"
  | .Backtick => asciiBytes "`"
  | .StartDocString label kind =>
    if kind = DocStringKind.Nowdoc then
      asciiBytes "<<<'" ++ displayByteString label ++ asciiBytes "'"
    else
      asciiBytes "<<<" ++ displayByteString label
  | .EndDocString label _ _ => displayByteString label
  | .BangEquals => asciiBytes "!="
  | .From => asciiBytes "from"
  | .Print => asciiBytes "print"
  | .BitwiseNot => asciiBytes "~"
  | .Dollar => asciiBytes "$"
  | .HaltCompiler => asciiBytes "__halt_compiler"
  | .Readonly => asciiBytes "readonly"
  | .AsteriskEqual => asciiBytes "*="
  | .ObjectCast => asciiBytes "(object)"
  | .UnsetCast => asciiBytes "(unset)"
  | .Abstract => asciiBytes "abstract"
  | .Ampersand => asciiBytes "&"
  | .And => asciiBytes "&&"
  | .AndEqual => asciiBytes "&="
  | .Arrow => asciiBytes "->"
  | .NullsafeArrow => asciiBytes "?->"
  | .Array => asciiBytes "array"
  | .ArrayCast => asciiBytes "(array)"
  | .As => asciiBytes "as"
  | .Asterisk => asciiBytes "*"
  | .Attribute => asciiBytes "#["
  | .Bang => asciiBytes "!"
  | .BoolCast => asciiBytes "(bool)"
  | .BooleanCast => asciiBytes "(boolean)"
  | .BooleanAnd => asciiBytes "&&"
  | .BooleanOr => asciiBytes "||"
  | .Break => asciiBytes "break"
  | .Callable => asciiBytes "callable"
  | .Caret => asciiBytes "^"
  | .CaretEquals => asciiBytes "^="
  | .Case => asciiBytes "case"
  | .Catch => asciiBytes "catch"
  | .Class => asciiBytes "class"
  | .ClassConstant => asciiBytes "__CLASS__"
  | .Clone => asciiBytes "clone"
  | .CloseTag => asciiBytes "?>"
  | .Coalesce => asciiBytes "??"
  | .CoalesceEqual => asciiBytes "??="
  | .Colon => asciiBytes ":"
  | .Comma => asciiBytes ","
  | .ConcatEqual => asciiBytes ".="
  | .Const => asciiBytes "const"
  | .Continue => asciiBytes "continue"
  | .IntCast => asciiBytes "(int)"
  | .IntegerCast => asciiBytes "(integer)"
  | .CurlyOpen => asciiBytes "\x7b$"
  | .Declare => asciiBytes "declare"
  | .Decrement => asciiBytes "--"
  | .Default => asciiBytes "default"
  | .DirConstant => asciiBytes "__DIR__"
  | .DivEqual => asciiBytes "/="
  | .Do => asciiBytes "do"
  | .Dot => asciiBytes "."
  | .DotEquals => asciiBytes ".="
  | .DoubleArrow => asciiBytes "=>"
  | .DoubleCast => asciiBytes "(double)"
  | .RealCast => asciiBytes "(real)"
  | .FloatCast => asciiBytes "(float)"
  | .DoubleColon => asciiBytes "::"
  | .DoubleEquals => asciiBytes "=="
  | .Echo => asciiBytes "echo"
  | .Ellipsis => asciiBytes "..."
  | .Else => asciiBytes "else"
  | .ElseIf => asciiBytes "elseif"
  | .Empty => asciiBytes "empty"
  | .EndDeclare => asciiBytes "enddeclare"
  | .EndFor => asciiBytes "endfor"
  | .EndForeach => asciiBytes "endforeach"
  | .EndIf => asciiBytes "endif"
  | .EndSwitch => asciiBytes "endswitch"
  | .EndWhile => asciiBytes "endwhile"
  | .Enum => asciiBytes "enum"
  | .Eof => asciiBytes "[end of file]"
  | .Equals => asciiBytes "="
  | .Extends => asciiBytes "extends"
  | .False => asciiBytes "false"
  | .Final => asciiBytes "final"
  | .Finally => asciiBytes "finally"
  | .LiteralFloat b => displayByteString b
  | .Fn => asciiBytes "fn"
  | .For => asciiBytes "for"
  | .Function => asciiBytes "function"
  | .Goto => asciiBytes "goto"
  | .GreaterThan => asciiBytes ">"
  | .GreaterThanEquals => asciiBytes ">="
  | .If => asciiBytes "if"
  | .Implements => asciiBytes "implements"
  | .Increment => asciiBytes "++"
  | .InlineHtml _ => asciiBytes "InlineHtml"
  | .LiteralInteger b => displayByteString b
  | .LeftBrace => asciiBytes "\x7b"
  | .LeftBracket => asciiBytes "["
  | .LeftParen => asciiBytes "("
  | .LeftShift => asciiBytes "<<"
  | .LeftShiftEquals => asciiBytes "<<="
  | .RightShift => asciiBytes ">>"
  | .RightShiftEquals => asciiBytes ">>="
  | .LessThan => asciiBytes "<"
  | .LessThanEquals => asciiBytes "<="
  | .Match => asciiBytes "match"
  | .Minus => asciiBytes "-"
  | .MinusEquals => asciiBytes "-="
  | .Namespace => asciiBytes "namespace"
  | .NamespaceSeparator => asciiBytes "\\"
  | .New => asciiBytes "new"
  | .Null => asciiBytes "null"
  | .OpenTag .Full => asciiBytes "<?php"
  | .Percent => asciiBytes "%"
  | .PercentEquals => asciiBytes "%="
  | .Pipe => asciiBytes "|"
  | .PipeEquals => asciiBytes "|="
  | .Plus => asciiBytes "+"
  | .PlusEquals => asciiBytes "+="
  | .Pow => asciiBytes "**"
  | .Private => asciiBytes "private"
  | .Protected => asciiBytes "protected"
  | .Public => asciiBytes "public"
  | .Question => asciiBytes "?"
  | .QuestionColon => asciiBytes "?:"
  | .Require => asciiBytes "require"
  | .RequireOnce => asciiBytes "require_once"
  | .Return => asciiBytes "return"
  | .RightBrace => asciiBytes "\x7d"
  | .RightBracket => asciiBytes "]"
  | .RightParen => asciiBytes ")"
  | .SemiColon => asciiBytes ";"
  | .Slash => asciiBytes "/"
  | .SlashEquals => asciiBytes "/="
  | .Static => asciiBytes "static"
  | .StringCast => asciiBytes "(string)"
  | .BinaryCast => asciiBytes "(binary)"
  | .Switch => asciiBytes "switch"
  | .Throw => asciiBytes "throw"
  | .Trait => asciiBytes "trait"
  | .TripleEquals => asciiBytes "==="
  | .True => asciiBytes "true"
  | .Try => asciiBytes "try"
  | .Use => asciiBytes "use"
  | .Var => asciiBytes "var"
  | .Yield => asciiBytes "yield"
  | .While => asciiBytes "while"
  | .Global => asciiBytes "global"
  | .AngledLeftRight => asciiBytes "<>"
  | .Spaceship => asciiBytes "<=>"
  | .LogicalAnd => asciiBytes "and"
  | .LogicalOr => asciiBytes "or"
  | .LogicalXor => asciiBytes "xor"
  | .Foreach => asciiBytes "foreach"
  | .AmpersandEquals => asciiBytes "&="
  | .At => asciiBytes "at"
  | .BangDoubleEquals => asciiBytes "!=="
  | .TraitConstant => asciiBytes "__TRAIT__"
  | .FunctionConstant => asciiBytes "__FUNCTION__"
  | .MethodConstant => asciiBytes "__METHOD__"
  | .LineConstant => asciiBytes "__LINE__"
  | .FileConstant => asciiBytes "__FILE__"
  | .DollarLeftBrace => asciiBytes "$\x7b"
  | .DoubleQuote => asciiBytes "\""
  | .Include => asciiBytes "include"
  | .IncludeOnce => asciiBytes "include_once"
  | .Instanceof => asciiBytes "instanceof"
  | .Insteadof => asciiBytes "insteadof"
  | .Eval => asciiBytes "eval"
  | .Exit => asciiBytes "exit"
  | .Unset => asciiBytes "unset"
  | .Isset => asciiBytes "isset"
  | .List => asciiBytes "list"
  | .Interface => asciiBytes "interface"
  | .NamespaceConstant => asciiBytes "__NAMESPACE__"
  | .PowEquals => asciiBytes "**="
  | .Variable v => asciiBytes "$" ++ displayByteString v
  | .StringPart v => displayByteString v
  | .QualifiedIdentifier v => displayByteString v
  | .Identifier v => displayByteString v
  | .FullyQualifiedIdentifier v => displayByteString v
  | .DocOpen v => displayByteString v
  | .LiteralString v => displayByteString v
  | .SingleLineComment v => displayByteString v
  | .MultiLineComment v => displayByteString v
  | .HashMarkComment v => displayByteString v
  | .DocumentComment v => displayByteString v


/-- `UseKind` from the AST module (not among the available sources; its
three variants are fixed by the dispatch in `mod.rs` lines 68-78). -/
inductive UseKind where
  | Normal
  | Function
  | Const

/-- `IncludeKind` from the AST module; `mod.rs` line 450 converts the four
include/require token kinds into it. -/
inductive IncludeKind where
  | Include
  | IncludeOnce
  | Require
  | RequireOnce

/-- The `From<&TokenKind>` conversion used at `mod.rs` line 450 (declared in
the missing AST module; its value on the four include/require kinds is
forced, and it is never applied to anything else). -/
def IncludeKind.ofToken : TokenKind → IncludeKind
  | .IncludeOnce => .IncludeOnce
  | .Require => .Require
  | .RequireOnce => .RequireOnce
  | _ => .Include

/-- `MagicConst` from the AST module; only `Dir` is produced by `mod.rs`
(line 1261). -/
inductive MagicConstKind where
  | Dir

/-!
The AST node types. The AST module itself (`src/parser/ast.rs`) is not
among the available sources; every constructor and field below is read off
from the expressions that `mod.rs` builds, with the field types the spec's
§3 data model gives. Infix operators and cast kinds are carried as the
`TokenKind` they were converted from (`op.into()` in the source; the
target types are declared in the missing AST module). The closure, arrow
function, anonymous class, named function, class-like declaration and
namespace nodes come from `parser/internal` functions that are also not in
the sources; their shapes are modelled from the spec (§3).
-/

set_option maxHeartbeats 3200000 in
mutual
inductive Expression where
  | Variable (name : BStr)
  | LiteralInteger (i : BStr)
  | LiteralFloat (f : BStr)
  | Identifier (name : BStr)
  | Static
  | LiteralString (value : BStr)
  | InterpolatedString (parts : List StrPart)
  | Bool (value : Bool)
  | Null
  | MatchExpr (condition : Expression) (defaultArm : Option DefaultMatchArm)
      (arms : List MatchArm)
  | Array (items : List ArrayItem)
  | New (target : Expression) (args : List Arg)
  | MagicConst (constant : MagicConstKind)
  | Throw (value : Expression)
  | Yield (key : Option Expression) (value : Option Expression)
  | YieldFrom (value : Expression)
  | Clone (target : Expression)
  | Empty
  | Ternary (condition : Expression) (thenPart : Option Expression)
      (elsePart : Expression)
  | Coalesce (lhs : Expression) (rhs : Expression)
  | Call (target : Expression) (args : List Arg)
  | ArrayIndex (array : Expression) (index : Option Expression)
  | ConstFetch (target : Expression) (constant : BStr)
  | StaticMethodCall (target : Expression) (method : Expression) (args : List Arg)
  | StaticPropertyFetch (target : Expression) (property : Expression)
  | DynamicVariable (name : Expression)
  | MethodCall (target : Expression) (method : Expression) (args : List Arg)
  | NullsafeMethodCall (target : Expression) (method : Expression) (args : List Arg)
  | PropertyFetch (target : Expression) (property : Expression)
  | NullsafePropertyFetch (target : Expression) (property : Expression)
  | Increment (value : Expression)
  | Decrement (value : Expression)
  | Print (value : Expression)
  | BooleanNot (value : Expression)
  | Negate (value : Expression)
  | UnaryPlus (value : Expression)
  | BitwiseNot (value : Expression)
  | PreDecrement (value : Expression)
  | PreIncrement (value : Expression)
  | Cast (kind : TokenKind) (value : Expression)
  | ErrorSuppress (expr : Expression)
  | Infix (lhs : Expression) (op : TokenKind) (rhs : Expression)
  | Closure (byRef : Bool) (params : List Param) (uses : List BStr)
      (body : List Statement)
  | ArrowFunction (byRef : Bool) (params : List Param) (body : Expression)
  | AnonymousClass (args : List Arg) (body : List Statement)

inductive StrPart where
  | Const (b : BStr)
  | Expr (e : Expression)

inductive MatchArm where
  | mk (conditions : List Expression) (body : Expression)

inductive DefaultMatchArm where
  | mk (body : Expression)

inductive ArrayItem where
  | mk (key : Option Expression) (value : Expression) (unpack : Bool)

inductive Arg where
  | mk (unpack : Bool) (value : Expression)

inductive Param where
  | mk (byRef : Bool) (variadic : Bool) (name : BStr)
      (deflt : Option Expression)

inductive Statement where
  | GroupUse (prefixName : BStr) (kind : UseKind) (uses : List UseItem)
  | Use (uses : List UseItem) (kind : UseKind)
  | Constant (constants : List ConstItem)
  | HaltCompiler (content : Option BStr)
  | Goto (label : BStr)
  | Label (label : BStr)
  | Declare (declares : List DeclareItem) (body : List Statement)
  | Global (vars : List BStr)
  | Static (vars : List StaticVar)
  | InlineHtml (b : BStr)
  | Comment (comment : BStr)
  | DoWhile (condition : Expression) (body : List Statement)
  | While (condition : Expression) (body : List Statement)
  | Include (kind : IncludeKind) (path : Expression)
  | For (init : Option Expression) (condition : Option Expression)
      (loopExpr : Option Expression) (thenBlock : List Statement)
  | Foreach (expr : Expression) (byRef : Bool) (keyVar : Option Expression)
      (valueVar : Expression) (body : List Statement)
  | Switch (condition : Expression) (cases : List Case)
  | If (condition : Expression) (thenBlock : List Statement)
      (elseIfs : List ElseIf) (elseBlock : Option (List Statement))
  | Echo (values : List Expression)
  | Continue (num : Option Expression)
  | Break (num : Option Expression)
  | Return (value : Option Expression)
  | Noop
  | Try (body : List Statement) (catches : List Catch)
      (finallyBlock : Option (List Statement))
  | Block (body : List Statement)
  | Expression (expr : Expression)
  | NamespaceStmt (name : Option BStr) (body : List Statement)
  | FunctionStmt (name : BStr) (byRef : Bool) (params : List Param)
      (body : List Statement)
  | ClassStmt (name : BStr) (body : List Statement)
  | InterfaceStmt (name : BStr) (body : List Statement)
  | TraitStmt (name : BStr) (body : List Statement)
  | EnumStmt (name : BStr) (body : List Statement)

inductive UseItem where
  | mk (name : BStr) (aliasName : Option BStr)

inductive ConstItem where
  | mk (name : BStr) (value : Expression)

inductive DeclareItem where
  | mk (key : BStr) (value : Expression)

inductive StaticVar where
  | mk (var : Expression) (deflt : Option Expression)

inductive ElseIf where
  | mk (condition : Expression) (body : List Statement)

inductive Case where
  | mk (condition : Option Expression) (body : List Statement)

inductive Catch where
  | mk (types : List BStr) (var : Option Expression) (body : List Statement)
end

/-- `Program = Vec<Statement>`. -/
abbrev Program := List Statement

/-- `Block = Vec<Statement>`. -/
abbrev Block := List Statement

/-- `Associativity` from `parser/internal/precedence.rs` (not among the
available sources; the three associativity classes of the spec's §4.3
precedence table). -/
inductive Assoc where
  | Non
  | Left
  | Right
  deriving DecidableEq, BEq

/-- Modelled from the spec: the `Precedence` enum of
`parser/internal/precedence.rs` is not among the available sources. The
levels and their order follow the §4.3 table (low to high): assignment
family, ternary, `??`, or, and, `|`, `^`, `&`, equality, comparison,
shift, additive, multiplicative, `!`, `instanceof`, unary prefix, `**`,
clone/new, postfix inc/dec, member access / index / call. `Lowest`,
`Yield`, `YieldFrom`, `Print`, `NullCoalesce`, `CloneOrNew` are required
by the call sites in `mod.rs`; `Concat` (`.`) is absent from the spec
table and is placed at its conventional level between shift and additive.
-/
inductive Precedence where
  | Lowest
  | Yield
  | YieldFrom
  | Print
  | Assignment
  | Ternary
  | NullCoalesce
  | Or
  | And
  | BitwiseOr
  | BitwiseXor
  | BitwiseAnd
  | Equality
  | Comparison
  | Shift
  | Concat
  | AddSub
  | MulDivMod
  | Bang
  | Instanceof
  | Prefix
  | Pow
  | CloneOrNew
  | IncDec
  | CallDim
  | ObjectAccess
  deriving DecidableEq, BEq

/-- The rank realising the derived `PartialOrd` of the `Precedence` enum
(declaration order). -/
def Precedence.toNat : Precedence → Nat
  | .Lowest => 0
  | .Yield => 1
  | .YieldFrom => 2
  | .Print => 3
  | .Assignment => 4
  | .Ternary => 5
  | .NullCoalesce => 6
  | .Or => 7
  | .And => 8
  | .BitwiseOr => 9
  | .BitwiseXor => 10
  | .BitwiseAnd => 11
  | .Equality => 12
  | .Comparison => 13
  | .Shift => 14
  | .Concat => 15
  | .AddSub => 16
  | .MulDivMod => 17
  | .Bang => 18
  | .Instanceof => 19
  | .Prefix => 20
  | .Pow => 21
  | .CloneOrNew => 22
  | .IncDec => 23
  | .CallDim => 24
  | .ObjectAccess => 25

/-- Modelled from the spec: the associativity assignment of §4.3
("associativity in braces" in the precedence table; `**` right, ternary
and `??` right, `instanceof` and the equality/comparison groups
non-associative, the remaining binary groups left). -/
def Precedence.associativity : Precedence → Option Assoc
  | .Assignment => some .Right
  | .Ternary => some .Right
  | .NullCoalesce => some .Right
  | .Or => some .Left
  | .And => some .Left
  | .BitwiseOr => some .Left
  | .BitwiseXor => some .Left
  | .BitwiseAnd => some .Left
  | .Equality => some .Non
  | .Comparison => some .Non
  | .Shift => some .Left
  | .Concat => some .Left
  | .AddSub => some .Left
  | .MulDivMod => some .Left
  | .Instanceof => some .Non
  | .Pow => some .Right
  | _ => none

/-- Modelled from the spec: `Precedence::infix`, the infix half of the
§4.3 table keyed on the operator token (it is only applied to kinds
accepted by `is_infix`; other kinds are mapped to `Lowest`). -/
def Precedence.infixPrec : TokenKind → Precedence
  | .Equals | .PlusEquals | .MinusEquals | .AsteriskEqual | .SlashEquals
  | .DotEquals | .PercentEquals | .PowEquals | .AmpersandEquals
  | .PipeEquals | .CaretEquals | .LeftShiftEquals | .RightShiftEquals
  | .CoalesceEqual => .Assignment
  | .Question | .QuestionColon => .Ternary
  | .BooleanOr | .LogicalOr => .Or
  | .BooleanAnd | .LogicalAnd => .And
  | .Pipe => .BitwiseOr
  | .Caret | .LogicalXor => .BitwiseXor
  | .Ampersand => .BitwiseAnd
  | .DoubleEquals | .BangEquals | .TripleEquals | .BangDoubleEquals
  | .AngledLeftRight => .Equality
  | .LessThan | .LessThanEquals | .GreaterThan | .GreaterThanEquals
  | .Spaceship => .Comparison
  | .LeftShift | .RightShift => .Shift
  | .Dot => .Concat
  | .Plus | .Minus => .AddSub
  | .Asterisk | .Slash | .Percent => .MulDivMod
  | .Instanceof => .Instanceof
  | .Pow => .Pow
  | _ => .Lowest

/-- Modelled from the spec: `Precedence::postfix` for the postfix
operator kinds of `is_postfix` (`??` at its §4.3 level, `++`/`--` at the
postfix level, call/index and member access at the top levels). -/
def Precedence.postfixPrec : TokenKind → Precedence
  | .Coalesce => .NullCoalesce
  | .Increment | .Decrement => .IncDec
  | .LeftParen | .LeftBracket => .CallDim
  | .Arrow | .NullsafeArrow | .DoubleColon => .ObjectAccess
  | _ => .Lowest

/-- Modelled from the spec: `Precedence::prefix` for the prefix operator
kinds of `is_prefix` (`!` at its own §4.3 level, `print` low, the
remaining unary operators and casts at the unary level). -/
def Precedence.prefixPrec : TokenKind → Precedence
  | .Bang => .Bang
  | .Print => .Print
  | _ => .Prefix

/-- `is_prefix` from `mod.rs` lines 1715-1739. -/
def isPrefixOp : TokenKind → Bool
  | .Bang | .Print | .BitwiseNot | .Decrement | .Increment | .Minus | .Plus
  | .StringCast | .BinaryCast | .ObjectCast | .BoolCast | .BooleanCast
  | .IntCast | .IntegerCast | .FloatCast | .DoubleCast | .RealCast
  | .UnsetCast | .ArrayCast | .At => true
  | _ => false

/-- `prefix` from `mod.rs` lines 1741-1784 (the `unreachable!()` default is
never hit because the function is only applied under `is_prefix`; it is
mapped to `Expression.Null` here). -/
def prefixExpr (op : TokenKind) (rhs : Expression) : Expression :=
  match op with
  | .Print => .Print rhs
  | .Bang => .BooleanNot rhs
  | .Minus => .Negate rhs
  | .Plus => .UnaryPlus rhs
  | .BitwiseNot => .BitwiseNot rhs
  | .Decrement => .PreDecrement rhs
  | .Increment => .PreIncrement rhs
  | .StringCast | .BinaryCast | .ObjectCast | .BoolCast | .BooleanCast
  | .IntCast | .IntegerCast | .FloatCast | .DoubleCast | .RealCast
  | .UnsetCast | .ArrayCast => .Cast op rhs
  | .At => .ErrorSuppress rhs
  | _ => .Null

/-- `infix` from `mod.rs` lines 1786-1792. -/
def mkInfix (lhs : Expression) (op : TokenKind) (rhs : Expression) : Expression :=
  .Infix lhs op rhs

/-- `is_infix` from `mod.rs` lines 1794-1842. -/
def isInfixOp : TokenKind → Bool
  | .Pow | .RightShiftEquals | .LeftShiftEquals | .CaretEquals
  | .AmpersandEquals | .PipeEquals | .PercentEquals | .PowEquals
  | .LogicalAnd | .LogicalOr | .LogicalXor | .Spaceship | .LeftShift
  | .RightShift | .Ampersand | .Pipe | .Caret | .Percent | .Instanceof
  | .Asterisk | .Slash | .Plus | .Minus | .Dot | .LessThan | .GreaterThan
  | .LessThanEquals | .GreaterThanEquals | .DoubleEquals | .TripleEquals
  | .BangEquals | .BangDoubleEquals | .AngledLeftRight | .Question
  | .QuestionColon | .BooleanAnd | .BooleanOr | .Equals | .PlusEquals
  | .MinusEquals | .DotEquals | .CoalesceEqual | .AsteriskEqual
  | .SlashEquals => true
  | _ => false

/-- `is_postfix` from `mod.rs` lines 1844-1856. -/
def isPostfixOp : TokenKind → Bool
  | .Increment | .Decrement | .LeftParen | .LeftBracket | .Arrow
  | .NullsafeArrow | .DoubleColon | .Coalesce => true
  | _ => false

/-- `ParseError` from `src/parser/error.rs` (not among the available
sources). The variants and their payloads follow the spec's §7 list; the
`ExpectedToken` / `ExpectedOneOf` shapes stand for the errors produced by
the `expect_token!` / `expected_token_err!` macros, recording the
alternatives (as token kinds resp. the message strings written at the call
sites), the `Display` bytes of the actual token, and its span.
`OutOfFuel` is an artifact of the fuel-based embedding; no source path
produces it. -/
inductive ParseError where
  | OutOfFuel
  | ExpectedToken (expected : List TokenKind) (found : List Nat) (span : Span)
  | ExpectedOneOf (expected : List String) (found : List Nat) (span : Span)
  | UnexpectedToken (found : List Nat) (span : Span)
  | UnexpectedEndOfFile
  | ExpectedItemDefinitionAfterAttributes (span : Span)
  | TryWithoutCatchOrFinally (span : Span)
  | MatchExpressionWithMultipleDefaultArms (span : Span)

/-- Modelled from the spec: the parser state of `src/parser/state.rs` (not
among the available sources) is a token cursor: `current` is the first
unconsumed token, `peek` the next, and `iter` the remainder; past the end
both are `Token::default()` (`Eof`). It is modelled by the list of
unconsumed tokens. The comment buffer (`gather_comments` /
`clear_comments`) only ever feeds `clear_comments`, so it is not carried.
-/
structure State where
  toks : List Token

/-- `state.current`. -/
def State.current (s : State) : Token := s.toks.headD defaultToken

/-- `state.peek`. -/
def State.peek (s : State) : Token := (s.toks.drop 1).headD defaultToken

/-- The first token of `state.iter` (two past the cursor), used by the
`function &` lookahead at `mod.rs` lines 210-218. -/
def State.iterFirst (s : State) : Option Token := (s.toks.drop 2).head?

/-- `state.next()`. -/
def State.next (s : State) : State := ⟨s.toks.tail⟩

/-- `state.is_eof()`. -/
def State.isEof (s : State) : Bool := s.current.kind == .Eof

/-- The four comment token kinds (`mod.rs` calls them `Comment`). -/
def isCommentToken : TokenKind → Bool
  | .SingleLineComment _ | .HashMarkComment _ | .MultiLineComment _
  | .DocumentComment _ => true
  | _ => false

/-- The cursor motion of `state.skip_comments()`. -/
def skipCommentsList : List Token → List Token
  | [] => []
  | t :: ts => if isCommentToken t.kind then skipCommentsList ts else t :: ts

/-- `state.skip_comments()`: advance past comment tokens. -/
def State.skipComments (s : State) : State := ⟨skipCommentsList s.toks⟩

/-- `state.gather_comments()`: collects comment tokens into the buffer
while advancing past them; since the buffer is only ever cleared, the
cursor motion is all that is modelled. -/
def State.gatherComments (s : State) : State := s.skipComments

/-- The parser computations: either a value paired with the advanced
state, or an error paired with the state at the failure point (the Rust
parser mutates its state in place, so consumed tokens stay consumed when
an error is returned). -/
abbrev PM := Except (ParseError × State)

/-- The `expect_token!` macro (from the missing `macros.rs`): if the
current token has the expected kind consume it, otherwise fail with the
expected kind, the `Display` text of the actual token, and its span. -/
def expectKind (k : TokenKind) (s : State) : PM State :=
  if s.current.kind == k then .ok s.next
  else .error (.ExpectedToken [k] (displayTokenKind s.current.kind) s.current.span, s)

/-- Modelled from the spec: the `semi` utility expects `;`. -/
def semi (s : State) : PM State := expectKind .SemiColon s

/-- Modelled from the spec: the `colon` utility expects `:`. -/
def colon (s : State) : PM State := expectKind .Colon s

/-- Modelled from the spec: the `lparen` utility expects `(`. -/
def lparen (s : State) : PM State := expectKind .LeftParen s

/-- Modelled from the spec: the `rparen` utility expects `)`. -/
def rparen (s : State) : PM State := expectKind .RightParen s

/-- Modelled from the spec: the `lbrace` utility expects an opening brace. -/
def lbrace (s : State) : PM State := expectKind .LeftBrace s

/-- Modelled from the spec: the `rbrace` utility expects a closing brace. -/
def rbrace (s : State) : PM State := expectKind .RightBrace s

/-- Modelled from the spec: the `rbracket` utility expects `]`. -/
def rbracket (s : State) : PM State := expectKind .RightBracket s

/-- Modelled from the spec: the `ident` utility (`parser/internal/ident.rs`
is not among the available sources) expects a plain identifier and returns
its bytes. -/
def ident (s : State) : PM (BStr × State) :=
  match s.current.kind with
  | .Identifier v => .ok (v, s.next)
  | _ => .error (.ExpectedOneOf ["an identifier"]
      (displayTokenKind s.current.kind) s.current.span, s)

/-- Modelled from the spec: the `full_name` utility accepts an unqualified,
qualified or fully-qualified identifier and returns its bytes. -/
def fullName (s : State) : PM (BStr × State) :=
  match s.current.kind with
  | .Identifier v => .ok (v, s.next)
  | .QualifiedIdentifier v => .ok (v, s.next)
  | .FullyQualifiedIdentifier v => .ok (v, s.next)
  | _ => .error (.ExpectedOneOf ["an identifier"]
      (displayTokenKind s.current.kind) s.current.span, s)

/-- Modelled from the spec: the `var` utility expects a `$variable` token
and returns the name bytes (without the `$`). -/
def var (s : State) : PM (BStr × State) :=
  match s.current.kind with
  | .Variable v => .ok (v, s.next)
  | _ => .error (.ExpectedOneOf ["a variable"]
      (displayTokenKind s.current.kind) s.current.span, s)

/-- Modelled from the spec: `is_reserved_ident` from
`parser/internal/ident.rs` (not among the available sources) recognises
the reserved words usable as member names after `::` and `->`. -/
def isReservedIdent : TokenKind → Bool
  | .Self_ | .Parent | .Array | .List | .Empty | .Print | .Echo | .Include
  | .IncludeOnce | .Require | .RequireOnce | .New | .Clone | .If | .Else
  | .ElseIf | .For | .Foreach | .While | .Do | .Switch | .Case | .Default
  | .Match | .Function | .Fn | .Return | .Try | .Catch | .Finally | .Throw
  | .Use | .Const | .Var | .Static | .Readonly | .Enum | .Unset | .Isset
  | .Eval | .Exit | .True | .False | .Null | .From | .Global | .Goto
  | .Namespace | .Interface | .Trait | .Callable | .Class => true
  | _ => false

/-- Modelled from the spec: `ident_maybe_reserved` accepts a plain
identifier or a reserved word, returning the word's bytes. -/
def identMaybeReserved (s : State) : PM (BStr × State) :=
  match s.current.kind with
  | .Identifier v => .ok (v, s.next)
  | k =>
    if isReservedIdent k then .ok (displayTokenKind k, s.next)
    else .error (.ExpectedOneOf ["an identifier"]
        (displayTokenKind k) s.current.span, s)

/-- The `expect_literal!` macro (from the missing `macros.rs`): a literal
integer, float or string becomes the corresponding literal expression. -/
def expectLiteral (s : State) : PM (Expression × State) :=
  match s.current.kind with
  | .LiteralInteger i => .ok (.LiteralInteger i, s.next)
  | .LiteralFloat f => .ok (.LiteralFloat f, s.next)
  | .LiteralString v => .ok (.LiteralString v, s.next)
  | k => .error (.ExpectedOneOf ["a literal"]
      (displayTokenKind k) s.current.span, s)

/-- Token-balanced skip of one `#[ … ]` attribute group: depth bookkeeping
over `[`/`#[` and `]`, `none` when the input ends first. -/
def attrSkip : Nat → List Token → Option (List Token)
  | _, [] => none
  | depth, t :: ts =>
    match t.kind with
    | .LeftBracket => attrSkip (depth + 1) ts
    | .Attribute => attrSkip (depth + 1) ts
    | .RightBracket => if depth = 1 then some ts else attrSkip (depth - 1) ts
    | .Eof => none
    | _ => attrSkip depth ts

/-- Iterates `attrSkip` over consecutive attribute groups; the countdown
argument (bounded by the token count) only forces termination. -/
def gatherAttributesAux : Nat → Bool → State → PM (Bool × State)
  | 0, found, s => .ok (found, s)
  | n + 1, found, s =>
    if s.current.kind == .Attribute then
      match attrSkip 1 s.next.toks with
      | none => .error (.UnexpectedEndOfFile, s)
      | some ts => gatherAttributesAux n true ⟨ts⟩
    else .ok (found, s)

/-- Modelled from the spec: `gather_attributes` (from the missing
`parser/internal` attribute module) recognises `#[ … ]` attribute groups
before a declaration or expression, consumes them, and reports whether any
were present (§4.3: "attributes (`#[…]`) may precede"). -/
def gatherAttributes (s : State) : PM (Bool × State) :=
  gatherAttributesAux (s.toks.length + 1) false s


/-- The restricted index expression inside `"$var[ … ]"` (`mod.rs` lines
1640-1678): an integer, a negated integer, an identifier-as-string, or a
variable; full expression syntax is not allowed here. -/
def varOffsetIndex (s : State) : PM (Expression × State) :=
  match s.current.kind with
  | .LiteralInteger i => .ok (.LiteralInteger i, s.next)
  | .Minus =>
    (match s.next.current.kind with
    | .LiteralInteger i => .ok (.Negate (.LiteralInteger i), s.next.next)
    | k => .error (.ExpectedOneOf ["an integer"]
        (displayTokenKind k) s.next.current.span, s.next))
  | .Identifier idb => .ok (.LiteralString idb, s.next)
  | .Variable v2 => .ok (.Variable v2, s.next)
  | k => .error (.ExpectedOneOf
      ["`-`", "an integer", "an identifier", "a variable"]
      (displayTokenKind k) s.current.span, s)

/-- The `Variable` arm of `interpolated_string_part` (`mod.rs` lines
1635-1707), with the cursor already past the variable token: `$v[idx]`,
`$v->prop`, `$v?->prop`, or the bare variable. -/
def interpolatedStringVariable (v : BStr) (s : State) : PM (Option StrPart × State) :=
  let varE := Expression.Variable v
  match s.current.kind with
  | .LeftBracket => do
    let s := s.next
    let (index, s) ← varOffsetIndex s
    let s ← expectKind .RightBracket s
    .ok (some (.Expr (.ArrayIndex varE (some index))), s)
  | .Arrow => do
    let s := s.next
    let (n, s) ← identMaybeReserved s
    .ok (some (.Expr (.PropertyFetch varE (.Identifier n))), s)
  | .NullsafeArrow => do
    let s := s.next
    let (n, s) ← identMaybeReserved s
    .ok (some (.Expr (.NullsafePropertyFetch varE (.Identifier n))), s)
  | _ => .ok (some (.Expr varE), s)

/-- The final step of the `try` arm (`mod.rs` lines 890-898): no catch
clause and no `finally` is the error `TryWithoutCatchOrFinally` at the
span of the `try` token; otherwise the `Try` node. -/
def tryFinish (startSpan : Span) (body : List Statement) (catches : List Catch)
    (finallyB : Option (List Statement)) (s : State) : PM (Statement × State) :=
  if catches.isEmpty && finallyB.isNone then
    .error (.TryWithoutCatchOrFinally startSpan, s)
  else .ok (.Try body catches finallyB, s)

/-- The `matches!(…, Identifier(_) | Null | Ampersand)` guard of the
`function` statement arm (`mod.rs` lines 251-254). -/
def functionPeekGuard : TokenKind → Bool
  | .Identifier _ | .Null | .Ampersand => true
  | _ => false

/-- The `matches!(…, Some(Token { kind: Identifier(_), .. }))` test of the
`function &` lookahead (`mod.rs` lines 213-219). -/
def isIdentifierKind : TokenKind → Bool
  | .Identifier _ => true
  | _ => false

/-- The `matches!(state.peek.kind, Variable(_))` guard of the `static`
statement arm (`mod.rs` line 360). -/
def isVariableKind : TokenKind → Bool
  | .Variable _ => true
  | _ => false

/-- Applies the trailing `state.skip_comments()` that `Parser::statement`
performs after its dispatch match (`mod.rs` line 916) to a branch result;
the two `return` statements inside the dispatch bypass it. -/
def andSkipComments (r : PM (Statement × State)) : PM (Statement × State) :=
  match r with
  | .ok (st, s) => .ok (st, s.skipComments)
  | .error e => .error e

/-- The two-alternative `expect_token!([Colon, SemiColon], …)` form used by
the `switch` arms (`mod.rs` lines 589-593 and 611-615). -/
def expectEither (k1 k2 : TokenKind) (s : State) : PM State :=
  if s.current.kind == k1 || s.current.kind == k2 then .ok s.next
  else .error (.ExpectedToken [k1, k2] (displayTokenKind s.current.kind) s.current.span, s)

/-- Drops `abstract` / `final` / `readonly` modifier tokens in front of a
class head (used by the spec-modelled `classDefinition`). -/
def skipModifiersList : List Token → List Token
  | [] => []
  | t :: ts =>
    match t.kind with
    | .Abstract | .Final | .Readonly => skipModifiersList ts
    | _ => t :: ts

/-!
The parser proper: a fuel-indexed translation of `Parser` from `mod.rs`.
Every function takes the fuel first, returns `OutOfFuel` at fuel zero, and
passes the predecessor to every call of a function in this block, so the
whole block is structurally recursive in the fuel. Rust `while`/`loop`
constructs become the `…Loop` functions, with the accumulated vector as an
explicit argument. Functions whose Rust source lives in the missing
`parser/internal` modules carry a `Modelled from the spec:` comment;
everything else is `mod.rs` line by line.
-/

set_option maxHeartbeats 4000000 in
mutual

/-- `Parser::expression` entry (`mod.rs` lines 921-946 and 1284-1286): eof
check, attribute gathering, the restricted nud under attributes, the plain
nud otherwise, then the early `;` return and the Pratt loop. -/
def expression (fuel : Nat) (prec : Precedence) (s : State) : PM (Expression × State) :=
  match fuel with
  | 0 => .error (.OutOfFuel, s)
  | fuel + 1 =>
    if s.isEof then .error (.UnexpectedEndOfFile, s)
    else do
      let (hasAttributes, s) ← gatherAttributes s
      let (left, s) ←
        if hasAttributes then
          match s.current.kind with
          | .Static =>
            if s.peek.kind == .Function then anonymousFunction fuel s
            else if s.peek.kind == .Fn then arrowFunction fuel s
            else .error (.ExpectedItemDefinitionAfterAttributes s.current.span, s)
          | .Function => anonymousFunction fuel s
          | .Fn => arrowFunction fuel s
          | _ => .error (.ExpectedItemDefinitionAfterAttributes s.current.span, s)
        else nud fuel s
      if s.current.kind == .SemiColon then .ok (left, s)
      else exprLoop fuel prec left s.skipComments

/-- The null-denotation match of `Parser::expression` (`mod.rs` lines
947-1282), one arm per token kind in source order; Rust guard fall-through
is rendered as nested conditionals. -/
def nud (fuel : Nat) (s : State) : PM (Expression × State) :=
  match fuel with
  | 0 => .error (.OutOfFuel, s)
  | fuel + 1 =>
    match s.current.kind with
    | .Static =>
      if s.peek.kind == .Function then anonymousFunction fuel s
      else if s.peek.kind == .Fn then arrowFunction fuel s
      else if s.peek.kind == .DoubleColon then .ok (.Static, s.next)
      else .error (.UnexpectedToken (displayTokenKind s.current.kind) s.current.span, s)
    | .Function => anonymousFunction fuel s
    | .Fn => arrowFunction fuel s
    | .New =>
      if s.peek.kind == .Class || s.peek.kind == .Attribute then
        anonymousClassDefinition fuel s
      else do
        let s := s.next
        let (target, s) ← expression fuel .CloneOrNew s
        if s.current.kind == .LeftParen then do
          let (args, s) ← argsList fuel s
          .ok (.New target args, s)
        else .ok (.New target [], s)
    | .Throw => do
      let s := s.next
      let (value, s) ← expression fuel .Lowest s
      .ok (.Throw value, s)
    | .Yield => do
      let s := s.next
      if s.current.kind == .SemiColon then .ok (.Yield none none, s)
      else do
        let (fromKw, s) :=
          if s.current.kind == .From then (true, s.next) else (false, s)
        let (value, s) ←
          expression fuel (if fromKw then .YieldFrom else .Yield) s
        if s.current.kind == .DoubleArrow && !fromKw then do
          let s := s.next
          let (value2, s) ← expression fuel .Yield s
          .ok (.Yield (some value) (some value2), s)
        else if fromKw then .ok (.YieldFrom value, s)
        else .ok (.Yield none (some value), s)
    | .Clone => do
      let s := s.next
      let (target, s) ← expression fuel .CloneOrNew s
      .ok (.Clone target, s)
    | .Variable v => .ok (.Variable v, s.next)
    | .LiteralInteger i => .ok (.LiteralInteger i, s.next)
    | .LiteralFloat f => .ok (.LiteralFloat f, s.next)
    | .Identifier i => .ok (.Identifier i, s.next)
    | .QualifiedIdentifier i => .ok (.Identifier i, s.next)
    | .FullyQualifiedIdentifier i => .ok (.Identifier i, s.next)
    | .LiteralString v => .ok (.LiteralString v, s.next)
    | .StringPart _ => interpolatedString fuel s
    | .StartDocString _ _ => heredocString fuel s
    | .True => .ok (.Bool true, s.next)
    | .False => .ok (.Bool false, s.next)
    | .Null => .ok (.Null, s.next)
    | .LeftParen => do
      let s := s.next
      let (e, s) ← expression fuel .Lowest s
      let s ← rparen s
      .ok (e, s)
    | .Match => do
      let s := s.next
      let s ← lparen s
      let (condition, s) ← expression fuel .Lowest s
      let s ← rparen s
      let s ← lbrace s
      let (armsDflt, s) ← matchArmsLoop fuel [] none s
      let s ← rbrace s
      .ok (.MatchExpr condition armsDflt.2 armsDflt.1, s)
    | .Array => do
      let s := s.next
      let s ← lparen s
      let (items, s) ← longArrayLoop fuel [] s
      let s ← rparen s
      .ok (.Array items, s)
    | .LeftBracket => do
      let s := s.next.skipComments
      let (items, s) ← shortArrayLoop fuel [] s
      let s := s.skipComments
      let s ← rbracket s
      .ok (.Array items, s)
    | .DirConstant => .ok (.MagicConst .Dir, s.next)
    | .Dollar => dynamicVariable fuel s
    | k =>
      if isPrefixOp k then do
        let s := s.next
        let (rhs, s) ← expression fuel (Precedence.prefixPrec k) s
        .ok (prefixExpr k rhs, s)
      else .error (.UnexpectedToken (displayTokenKind k) s.current.span, s)

/-- The Pratt loop of `Parser::expression` (`mod.rs` lines 1290-1363):
skip comments, stop before `;`/eof, then apply postfix or infix operators
by precedence, with the ternary special cases. -/
def exprLoop (fuel : Nat) (prec : Precedence) (left : Expression) (s : State) :
    PM (Expression × State) :=
  match fuel with
  | 0 => .error (.OutOfFuel, s)
  | fuel + 1 =>
    let s := s.skipComments
    if s.current.kind == .SemiColon || s.current.kind == .Eof then
      .ok (left, s.skipComments)
    else
      let span := s.current.span
      let kind := s.current.kind
      if isPostfixOp kind then
        if (Precedence.postfixPrec kind).toNat < prec.toNat then
          .ok (left, s.skipComments)
        else do
          let (left, s) ← postfixExpr fuel left kind s
          exprLoop fuel prec left s
      else if isInfixOp kind then
        let rpred := Precedence.infixPrec kind
        if rpred.toNat < prec.toNat then .ok (left, s.skipComments)
        else if rpred == prec && rpred.associativity == some Assoc.Left then
          .ok (left, s.skipComments)
        else if rpred == prec && rpred.associativity == some Assoc.Non then
          .error (.UnexpectedToken (displayTokenKind kind) span, s)
        else do
          let s := s.next
          match kind with
          | .Question => do
            let (thenE, s) ← expression fuel .Lowest s
            let s ← colon s
            let (otherwise, s) ← expression fuel rpred s
            exprLoop fuel prec (.Ternary left (some thenE) otherwise) s
          | .QuestionColon => do
            let (elseE, s) ← expression fuel .Lowest s
            exprLoop fuel prec (.Ternary left none elseE) s
          | _ => do
            let (rhs, s) ← expression fuel rpred s
            exprLoop fuel prec (mkInfix left kind rhs) s
      else .ok (left, s.skipComments)

/-- `Parser::postfix` (`mod.rs` lines 1366-1551); the `todo!()` default is
unreachable under `is_postfix` and is rendered as an `UnexpectedToken`. -/
def postfixExpr (fuel : Nat) (lhs : Expression) (op : TokenKind) (s : State) :
    PM (Expression × State) :=
  match fuel with
  | 0 => .error (.OutOfFuel, s)
  | fuel + 1 =>
    match op with
    | .Coalesce => do
      let s := s.next
      let (rhs, s) ← expression fuel .NullCoalesce s
      .ok (.Coalesce lhs rhs, s)
    | .LeftParen => do
      let (args, s) ← argsList fuel s
      .ok (.Call lhs args, s)
    | .LeftBracket => do
      let s := s.next
      if s.current.kind == .RightBracket then .ok (.ArrayIndex lhs none, s.next)
      else do
        let (index, s) ← expression fuel .Lowest s
        let s ← expectKind .RightBracket s
        .ok (.ArrayIndex lhs (some index), s)
    | .DoubleColon => do
      let s := s.next
      let (mbmc, property, s) ←
        (match s.current.kind with
        | .Dollar => do
          let (e, s) ← dynamicVariable fuel s
          .ok (false, e, s)
        | .Variable v => .ok (false, Expression.Variable v, s.next)
        | .LeftBrace => do
          let s := s.next
          let (name, s) ← expression fuel .Lowest s
          let s ← rbrace s
          .ok (true, Expression.DynamicVariable name, s)
        | .Identifier i => .ok (false, Expression.Identifier i, s.next)
        | .Class => .ok (false, Expression.Identifier (asciiBytes "class"), s.next)
        | k =>
          if isReservedIdent k then do
            let (n, s) ← identMaybeReserved s
            .ok (false, Expression.Identifier n, s)
          else
            .error (.ExpectedOneOf ["`\x7b`", "`$`", "an identifier"]
              (displayTokenKind k) s.current.span, s) :
          PM (Bool × Expression × State))
      match property with
      | Expression.Identifier name =>
        if s.current.kind == .LeftParen then do
          let (args, s) ← argsList fuel s
          .ok (.StaticMethodCall lhs property args, s)
        else .ok (.ConstFetch lhs name, s)
      | _ =>
        if s.current.kind == .LeftParen || mbmc then do
          let (args, s) ← argsList fuel s
          .ok (.StaticMethodCall lhs property args, s)
        else .ok (.StaticPropertyFetch lhs property, s)
    | .Arrow | .NullsafeArrow => do
      let s := s.next
      let (property, s) ←
        (match s.current.kind with
        | .LeftBrace => do
          let s ← lbrace s
          let (e, s) ← expression fuel .Lowest s
          let s ← rbrace s
          .ok (e, s)
        | .Variable v => .ok (Expression.Variable v, s.next)
        | .Dollar => dynamicVariable fuel s
        | _ => do
          let (n, s) ← identMaybeReserved s
          .ok (Expression.Identifier n, s) : PM (Expression × State))
      if s.current.kind == .LeftParen then do
        let (args, s) ← argsList fuel s
        if op == .NullsafeArrow then .ok (.NullsafeMethodCall lhs property args, s)
        else .ok (.MethodCall lhs property args, s)
      else if op == .NullsafeArrow then .ok (.NullsafePropertyFetch lhs property, s)
      else .ok (.PropertyFetch lhs property, s)
    | .Increment => .ok (.Increment lhs, s.next)
    | .Decrement => .ok (.Decrement lhs, s.next)
    | k => .error (.UnexpectedToken (displayTokenKind k) s.current.span, s)

/-- The `match` arm loop of `Parser::expression` (`mod.rs` lines
1089-1139): a second `default` arm fails with
`MatchExpressionWithMultipleDefaultArms` at its span; an arm with no
conditions before `=>` breaks out of the loop. -/
def matchArmsLoop (fuel : Nat) (arms : List MatchArm)
    (dflt : Option DefaultMatchArm) (s : State) :
    PM ((List MatchArm × Option DefaultMatchArm) × State) :=
  match fuel with
  | 0 => .error (.OutOfFuel, s)
  | fuel + 1 =>
    if s.current.kind == .RightBrace then .ok ((arms, dflt), s)
    else
      let s := s.skipComments
      if s.current.kind == .Default then
        if dflt.isSome then
          .error (.MatchExpressionWithMultipleDefaultArms s.current.span, s)
        else do
          let s := s.next
          let s := if s.current.kind == .Comma then s.next else s
          let s ← expectKind .DoubleArrow s
          let (body, s) ← expression fuel .Lowest s
          let dflt := some (DefaultMatchArm.mk body)
          if s.current.kind == .Comma then matchArmsLoop fuel arms dflt s.next
          else .ok ((arms, dflt), s)
      else do
        let (conditions, s) ← matchCondsLoop fuel [] s
        if conditions.isEmpty then .ok ((arms, dflt), s)
        else do
          let s ← expectKind .DoubleArrow s
          let (body, s) ← expression fuel .Lowest s
          let arms := arms ++ [MatchArm.mk conditions body]
          if s.current.kind == .Comma then matchArmsLoop fuel arms dflt s.next
          else .ok ((arms, dflt), s)

/-- The `match` arm condition loop (`mod.rs` lines 1112-1121). -/
def matchCondsLoop (fuel : Nat) (conds : List Expression) (s : State) :
    PM (List Expression × State) :=
  match fuel with
  | 0 => .error (.OutOfFuel, s)
  | fuel + 1 =>
    if s.current.kind == .DoubleArrow then .ok (conds, s)
    else do
      let (c, s) ← expression fuel .Lowest s
      let conds := conds ++ [c]
      if s.current.kind == .Comma then matchCondsLoop fuel conds s.next
      else .ok (conds, s)

/-- The `array(…)` item loop (`mod.rs` lines 1156-1184). -/
def longArrayLoop (fuel : Nat) (items : List ArrayItem) (s : State) :
    PM (List ArrayItem × State) :=
  match fuel with
  | 0 => .error (.OutOfFuel, s)
  | fuel + 1 =>
    if s.current.kind == .RightParen then .ok (items, s)
    else do
      let (unpack, s) :=
        if s.current.kind == .Ellipsis then (true, s.next) else (false, s)
      let (value, s) ← expression fuel .Lowest s
      if s.current.kind == .DoubleArrow then do
        let s := s.next
        let (value2, s) ← expression fuel .Lowest s
        let items := items ++ [ArrayItem.mk (some value) value2 unpack]
        if s.current.kind == .Comma then longArrayLoop fuel items s.next.skipComments
        else .ok (items, s)
      else
        let items := items ++ [ArrayItem.mk none value unpack]
        if s.current.kind == .Comma then longArrayLoop fuel items s.next.skipComments
        else .ok (items, s)

/-- The `[ … ]` item loop (`mod.rs` lines 1196-1235): a comma where an
element was expected contributes an `ArrayItem` with no key, value
`Expression::Empty` and `unpack = false`, and the loop continues. -/
def shortArrayLoop (fuel : Nat) (items : List ArrayItem) (s : State) :
    PM (List ArrayItem × State) :=
  match fuel with
  | 0 => .error (.OutOfFuel, s)
  | fuel + 1 =>
    if s.current.kind == .RightBracket then .ok (items, s)
    else if s.current.kind == .Comma then
      shortArrayLoop fuel (items ++ [ArrayItem.mk none .Empty false]) s.next
    else do
      let (unpack, s) :=
        if s.current.kind == .Ellipsis then (true, s.next) else (false, s)
      let (value, s) ← expression fuel .Lowest s
      if s.current.kind == .DoubleArrow then do
        let s := s.next
        let (value2, s) ← expression fuel .Lowest s
        let items := items ++ [ArrayItem.mk (some value) value2 unpack]
        let s := s.skipComments
        if s.current.kind == .Comma then shortArrayLoop fuel items s.next
        else .ok (items, s)
      else do
        let items := items ++ [ArrayItem.mk none value unpack]
        let s := s.skipComments
        if s.current.kind == .Comma then shortArrayLoop fuel items s.next
        else .ok (items, s)

/-- Modelled from the spec: `args_list` (§4.3 "(args) call"): `(`, a
comma-separated list of arguments each optionally spread with `...`,
then `)`. -/
def argsList (fuel : Nat) (s : State) : PM (List Arg × State) :=
  match fuel with
  | 0 => .error (.OutOfFuel, s)
  | fuel + 1 => do
    let s ← lparen s
    let (args, s) ← argsLoop fuel [] s
    let s ← rparen s
    .ok (args, s)

/-- Modelled from the spec: the argument loop of `args_list`. -/
def argsLoop (fuel : Nat) (args : List Arg) (s : State) : PM (List Arg × State) :=
  match fuel with
  | 0 => .error (.OutOfFuel, s)
  | fuel + 1 =>
    if s.current.kind == .RightParen then .ok (args, s)
    else do
      let (unpack, s) :=
        if s.current.kind == .Ellipsis then (true, s.next) else (false, s)
      let (value, s) ← expression fuel .Lowest s
      let args := args ++ [Arg.mk unpack value]
      if s.current.kind == .Comma then argsLoop fuel args s.next
      else .ok (args, s)

/-- Modelled from the spec: a parameter list `( … )` of by-ref/variadic
variables with optional defaults (type hints are not modelled). -/
def paramsList (fuel : Nat) (s : State) : PM (List Param × State) :=
  match fuel with
  | 0 => .error (.OutOfFuel, s)
  | fuel + 1 => do
    let s ← lparen s
    let (ps, s) ← paramsLoop fuel [] s
    let s ← rparen s
    .ok (ps, s)

/-- Modelled from the spec: the parameter loop of `paramsList`. -/
def paramsLoop (fuel : Nat) (ps : List Param) (s : State) : PM (List Param × State) :=
  match fuel with
  | 0 => .error (.OutOfFuel, s)
  | fuel + 1 =>
    if s.current.kind == .RightParen then .ok (ps, s)
    else do
      let (byRef, s) :=
        if s.current.kind == .Ampersand then (true, s.next) else (false, s)
      let (variadic, s) :=
        if s.current.kind == .Ellipsis then (true, s.next) else (false, s)
      let (name, s) ← var s
      if s.current.kind == .Equals then do
        let s := s.next
        let (d, s) ← expression fuel .Lowest s
        let ps := ps ++ [Param.mk byRef variadic name (some d)]
        if s.current.kind == .Comma then paramsLoop fuel ps s.next
        else .ok (ps, s)
      else
        let ps := ps ++ [Param.mk byRef variadic name none]
        if s.current.kind == .Comma then paramsLoop fuel ps s.next
        else .ok (ps, s)

/-- Modelled from the spec: an optional `: type` return-type clause
(consumed and discarded; an optional `?` then one name). -/
def returnTypeOpt (fuel : Nat) (s : State) : PM State :=
  match fuel with
  | 0 => .error (.OutOfFuel, s)
  | _ + 1 =>
    if s.current.kind == .Colon then do
      let s := s.next
      let s := if s.current.kind == .Question then s.next else s
      let (_, s) ← fullName s
      .ok s
    else .ok s

/-- Modelled from the spec: `function` (named function declaration,
`parser/internal`): `function`, optional `&` (returns by reference), the
name (an identifier, or the special-cased `null`), parameters, optional
return type, braced body. -/
def functionDecl (fuel : Nat) (s : State) : PM (Statement × State) :=
  match fuel with
  | 0 => .error (.OutOfFuel, s)
  | fuel + 1 => do
    let s ← expectKind .Function s
    let (byRef, s) :=
      if s.current.kind == .Ampersand then (true, s.next) else (false, s)
    let (name, s) ←
      (match s.current.kind with
      | .Identifier v => .ok (v, s.next)
      | .Null => .ok (asciiBytes "null", s.next)
      | k => .error (.ExpectedOneOf ["an identifier"]
          (displayTokenKind k) s.current.span, s) : PM (BStr × State))
    let (params, s) ← paramsList fuel s
    let s ← returnTypeOpt fuel s
    let s ← lbrace s
    let (body, s) ← block fuel .RightBrace [] s
    let s ← rbrace s
    .ok (.FunctionStmt name byRef params body, s)

/-- Modelled from the spec: `anonymous_function` (`parser/internal`):
optional `static`, `function`, optional `&`, parameters, optional
`use ( … )` capture list, optional return type, braced body. -/
def anonymousFunction (fuel : Nat) (s : State) : PM (Expression × State) :=
  match fuel with
  | 0 => .error (.OutOfFuel, s)
  | fuel + 1 => do
    let s := if s.current.kind == .Static then s.next else s
    let s ← expectKind .Function s
    let (byRef, s) :=
      if s.current.kind == .Ampersand then (true, s.next) else (false, s)
    let (params, s) ← paramsList fuel s
    let (uses, s) ←
      if s.current.kind == .Use then do
        let s := s.next
        let s ← lparen s
        let (us, s) ← useVarsLoop fuel [] s
        let s ← rparen s
        .ok (us, s)
      else .ok ([], s)
    let s ← returnTypeOpt fuel s
    let s ← lbrace s
    let (body, s) ← block fuel .RightBrace [] s
    let s ← rbrace s
    .ok (.Closure byRef params uses body, s)

/-- Modelled from the spec: the `use ( … )` capture-variable loop of an
anonymous function (by-reference markers are consumed). -/
def useVarsLoop (fuel : Nat) (acc : List BStr) (s : State) : PM (List BStr × State) :=
  match fuel with
  | 0 => .error (.OutOfFuel, s)
  | fuel + 1 =>
    if s.current.kind == .RightParen then .ok (acc, s)
    else do
      let s := if s.current.kind == .Ampersand then s.next else s
      let (v, s) ← var s
      let acc := acc ++ [v]
      if s.current.kind == .Comma then useVarsLoop fuel acc s.next
      else .ok (acc, s)

/-- Modelled from the spec: `arrow_function` (`parser/internal`): optional
`static`, `fn`, optional `&`, parameters, optional return type, `=>`, and
the body expression. -/
def arrowFunction (fuel : Nat) (s : State) : PM (Expression × State) :=
  match fuel with
  | 0 => .error (.OutOfFuel, s)
  | fuel + 1 => do
    let s := if s.current.kind == .Static then s.next else s
    let s ← expectKind .Fn s
    let (byRef, s) :=
      if s.current.kind == .Ampersand then (true, s.next) else (false, s)
    let (params, s) ← paramsList fuel s
    let s ← returnTypeOpt fuel s
    let s ← expectKind .DoubleArrow s
    let (body, s) ← expression fuel .Lowest s
    .ok (.ArrowFunction byRef params body, s)

/-- Modelled from the spec: a comma-separated list of class/interface
names (the `implements`/`extends` clauses). -/
def nameListLoop (fuel : Nat) (acc : List BStr) (s : State) : PM (List BStr × State) :=
  match fuel with
  | 0 => .error (.OutOfFuel, s)
  | fuel + 1 => do
    let (n, s) ← fullName s
    let acc := acc ++ [n]
    if s.current.kind == .Comma then nameListLoop fuel acc s.next
    else .ok (acc, s)

/-- Modelled from the spec: an optional `extends Name` clause. -/
def extendsOpt (fuel : Nat) (s : State) : PM State :=
  match fuel with
  | 0 => .error (.OutOfFuel, s)
  | _ + 1 =>
    if s.current.kind == .Extends then do
      let s := s.next
      let (_, s) ← fullName s
      .ok s
    else .ok s

/-- Modelled from the spec: an optional `implements A, B` clause. -/
def implementsOpt (fuel : Nat) (s : State) : PM State :=
  match fuel with
  | 0 => .error (.OutOfFuel, s)
  | fuel + 1 =>
    if s.current.kind == .Implements then do
      let s := s.next
      let (_, s) ← nameListLoop fuel [] s
      .ok s
    else .ok s

/-- Modelled from the spec: `anonymous_class_definition`
(`parser/internal`): `new`, attributes, `class`, optional argument list,
optional extends/implements, braced body (§4.3: "`new` followed by `class`
or `#[` starts an anonymous class"). -/
def anonymousClassDefinition (fuel : Nat) (s : State) : PM (Expression × State) :=
  match fuel with
  | 0 => .error (.OutOfFuel, s)
  | fuel + 1 => do
    let s ← expectKind .New s
    let (_, s) ← gatherAttributes s
    let s ← expectKind .Class s
    let (args, s) ←
      if s.current.kind == .LeftParen then argsList fuel s
      else .ok ([], s)
    let s ← extendsOpt fuel s
    let s ← implementsOpt fuel s
    let s ← lbrace s
    let (body, s) ← block fuel .RightBrace [] s
    let s ← rbrace s
    .ok (.AnonymousClass args body, s)

/-- Modelled from the spec: `class_definition` (`parser/internal`):
modifiers, `class`, name, optional extends/implements, braced body; the
body is a statement block (§3: "Every aggregate node (class body, …) is a
`[Statement]`"; member grammar is not modelled further). -/
def classDefinition (fuel : Nat) (s : State) : PM (Statement × State) :=
  match fuel with
  | 0 => .error (.OutOfFuel, s)
  | fuel + 1 => do
    let s : State := ⟨skipModifiersList s.toks⟩
    let s ← expectKind .Class s
    let (name, s) ← ident s
    let s ← extendsOpt fuel s
    let s ← implementsOpt fuel s
    let s ← lbrace s
    let (body, s) ← block fuel .RightBrace [] s
    let s ← rbrace s
    .ok (.ClassStmt name body, s)

/-- Modelled from the spec: `interface_definition` (`parser/internal`). -/
def interfaceDefinition (fuel : Nat) (s : State) : PM (Statement × State) :=
  match fuel with
  | 0 => .error (.OutOfFuel, s)
  | fuel + 1 => do
    let s ← expectKind .Interface s
    let (name, s) ← ident s
    let s ←
      if s.current.kind == .Extends then do
        let s := s.next
        let (_, s) ← nameListLoop fuel [] s
        .ok s
      else .ok s
    let s ← lbrace s
    let (body, s) ← block fuel .RightBrace [] s
    let s ← rbrace s
    .ok (.InterfaceStmt name body, s)

/-- Modelled from the spec: `trait_definition` (`parser/internal`). -/
def traitDefinition (fuel : Nat) (s : State) : PM (Statement × State) :=
  match fuel with
  | 0 => .error (.OutOfFuel, s)
  | fuel + 1 => do
    let s ← expectKind .Trait s
    let (name, s) ← ident s
    let s ← lbrace s
    let (body, s) ← block fuel .RightBrace [] s
    let s ← rbrace s
    .ok (.TraitStmt name body, s)

/-- Modelled from the spec: `enum_definition` (`parser/internal`), with an
optional backing type and implements clause. -/
def enumDefinition (fuel : Nat) (s : State) : PM (Statement × State) :=
  match fuel with
  | 0 => .error (.OutOfFuel, s)
  | fuel + 1 => do
    let s ← expectKind .Enum s
    let (name, s) ← ident s
    let s ←
      if s.current.kind == .Colon then do
        let s := s.next
        let (_, s) ← fullName s
        (.ok s : PM State)
      else .ok s
    let s ← implementsOpt fuel s
    let s ← lbrace s
    let (body, s) ← block fuel .RightBrace [] s
    let s ← rbrace s
    .ok (.EnumStmt name body, s)

/-- Modelled from the spec: `namespace` (`parser/internal`): `namespace`,
an optional name, then either a braced body or `;`. -/
def namespaceStmt (fuel : Nat) (s : State) : PM (Statement × State) :=
  match fuel with
  | 0 => .error (.OutOfFuel, s)
  | fuel + 1 => do
    let s ← expectKind .Namespace s
    let (name, s) :=
      match s.current.kind with
      | .Identifier v => (some v, s.next)
      | .QualifiedIdentifier v => (some v, s.next)
      | _ => (none, s)
    if s.current.kind == .LeftBrace then do
      let s := s.next
      let (body, s) ← block fuel .RightBrace [] s
      let s ← rbrace s
      .ok (.NamespaceStmt name body, s)
    else do
      let s ← semi s
      .ok (.NamespaceStmt name [], s)

/-- Modelled from the spec: `dynamic_variable` (`parser/internal`): `$`
followed by `{ expr }`, a variable, or another dynamic variable. -/
def dynamicVariable (fuel : Nat) (s : State) : PM (Expression × State) :=
  match fuel with
  | 0 => .error (.OutOfFuel, s)
  | fuel + 1 => do
    let s ← expectKind .Dollar s
    match s.current.kind with
    | .LeftBrace => do
      let s := s.next
      let (name, s) ← expression fuel .Lowest s
      let s ← rbrace s
      .ok (.DynamicVariable name, s)
    | .Variable v => .ok (.DynamicVariable (.Variable v), s.next)
    | .Dollar => do
      let (inner, s) ← dynamicVariable fuel s
      .ok (.DynamicVariable inner, s)
    | k => .error (.ExpectedOneOf ["a variable"]
        (displayTokenKind k) s.current.span, s)

/-- `Parser::interpolated_string` (`mod.rs` lines 1553-1565): collect
parts until the closing `"`, consume it. -/
def interpolatedString (fuel : Nat) (s : State) : PM (Expression × State) :=
  match fuel with
  | 0 => .error (.OutOfFuel, s)
  | fuel + 1 => do
    let (parts, s) ← ispLoop fuel [] s
    .ok (.InterpolatedString parts, s.next)

/-- The part loop of `interpolated_string`: empty results contribute
nothing. -/
def ispLoop (fuel : Nat) (parts : List StrPart) (s : State) :
    PM (List StrPart × State) :=
  match fuel with
  | 0 => .error (.OutOfFuel, s)
  | fuel + 1 =>
    if s.current.kind == .DoubleQuote then .ok (parts, s)
    else do
      let (part, s) ← interpolatedStringPart fuel s
      match part with
      | some p => ispLoop fuel (parts ++ [p]) s
      | none => ispLoop fuel parts s

/-- `Parser::heredoc_string` (`mod.rs` lines 1567-1581): skip the opening
delimiter, collect parts until the closing delimiter, consume it. -/
def heredocString (fuel : Nat) (s : State) : PM (Expression × State) :=
  match fuel with
  | 0 => .error (.OutOfFuel, s)
  | fuel + 1 => do
    let s := s.next
    let (parts, s) ← hdLoop fuel [] s
    .ok (.InterpolatedString parts, s.next)

/-- The part loop of `heredoc_string`. -/
def hdLoop (fuel : Nat) (parts : List StrPart) (s : State) :
    PM (List StrPart × State) :=
  match fuel with
  | 0 => .error (.OutOfFuel, s)
  | fuel + 1 =>
    match s.current.kind with
    | .EndDocString _ _ _ => .ok (parts, s)
    | _ => do
      let (part, s) ← interpolatedStringPart fuel s
      match part with
      | some p => hdLoop fuel (parts ++ [p]) s
      | none => hdLoop fuel parts s

/-- The `DollarLeftBrace` arm of `interpolated_string_part` (`mod.rs`
lines 1595-1627), with the cursor already past the `${`: `${var}`,
`${var[e]}`, or an arbitrary expression treated as a dynamic variable
(the Rust two-place match with a wildcard row becomes sequential tests
with the wildcard body repeated). -/
def dollarLeftBracePart (fuel : Nat) (s : State) : PM (Option StrPart × State) :=
  match fuel with
  | 0 => .error (.OutOfFuel, s)
  | fuel + 1 =>
    match s.current.kind with
    | .Identifier v =>
      if s.peek.kind == .RightBrace then .ok (some (.Expr (.Variable v)), s.next.next)
      else if s.peek.kind == .LeftBracket then do
        let s := s.next.next
        let (e, s) ← expression fuel .Lowest s
        let s ← expectKind .RightBracket s
        let s ← expectKind .RightBrace s
        .ok (some (.Expr (.ArrayIndex (.Variable v) (some e))), s)
      else do
        let (e, s) ← expression fuel .Lowest s
        let s ← expectKind .RightBrace s
        .ok (some (.Expr (.DynamicVariable e)), s)
    | _ => do
      let (e, s) ← expression fuel .Lowest s
      let s ← expectKind .RightBrace s
      .ok (some (.Expr (.DynamicVariable e)), s)

/-- `Parser::interpolated_string_part` (`mod.rs` lines 1583-1712): a
`StringPart` token contributes a `Const` part only when its byte content
is non-empty; `${…}`, `{…}` and `$var` forms contribute `Expr` parts. -/
def interpolatedStringPart (fuel : Nat) (s : State) : PM (Option StrPart × State) :=
  match fuel with
  | 0 => .error (.OutOfFuel, s)
  | fuel + 1 =>
    match s.current.kind with
    | .StringPart sp =>
      if sp.length > 0 then .ok (some (.Const sp), s.next)
      else .ok (none, s.next)
    | .DollarLeftBrace => dollarLeftBracePart fuel s.next
    | .LeftBrace => do
      let s := s.next
      let (e, s) ← expression fuel .Lowest s
      let s ← expectKind .RightBrace s
      .ok (some (.Expr e), s)
    | .Variable v => interpolatedStringVariable v s.next
    | k => .error (.ExpectedOneOf ["`$\x7b`", "`\x7b$", "`\"`", "a variable"]
        (displayTokenKind k) s.current.span, s)

/-- The expression-statement tail shared by the dispatch fall-throughs of
`Parser::statement`: an expression followed by `;`. -/
def exprStatement (fuel : Nat) (s : State) : PM (Statement × State) :=
  match fuel with
  | 0 => .error (.OutOfFuel, s)
  | fuel + 1 => do
    let (expr, s) ← expression fuel .Lowest s
    let s ← semi s
    .ok (.Expression expr, s)

/-- The shared tail of the `foreach` arm of `Parser::statement` (`mod.rs`
lines 537-562): `)`, then the colon-form or braced body. -/
def foreachRest (fuel : Nat) (expr : Expression) (byRef : Bool)
    (keyVar : Option Expression) (valueVar : Expression) (s : State) :
    PM (Statement × State) :=
  match fuel with
  | 0 => .error (.OutOfFuel, s)
  | fuel + 1 => do
    let s ← rparen s
    if s.current.kind == .Colon then do
      let s ← colon s
      let (body, s) ← block fuel .EndForeach [] s
      let s ← expectKind .EndForeach s
      let s ← semi s
      .ok (.Foreach expr byRef keyVar valueVar body, s)
    else do
      let s ← lbrace s
      let (body, s) ← block fuel .RightBrace [] s
      let s ← rbrace s
      .ok (.Foreach expr byRef keyVar valueVar body, s)

/-- The `switch` case loop (`mod.rs` lines 581-635). -/
def switchCasesLoop (fuel : Nat) (endKind : TokenKind) (cases : List Case)
    (s : State) : PM (List Case × State) :=
  match fuel with
  | 0 => .error (.OutOfFuel, s)
  | fuel + 1 =>
    if s.current.kind == endKind then .ok (cases, s)
    else
      match s.current.kind with
      | .Case => do
        let s := s.next
        let (condition, s) ← expression fuel .Lowest s
        let s ← expectEither .Colon .SemiColon s
        let (body, s) ← caseBodyLoop fuel [] s
        switchCasesLoop fuel endKind (cases ++ [Case.mk (some condition) body]) s
      | .Default => do
        let s := s.next
        let s ← expectEither .Colon .SemiColon s
        let (body, s) ← caseBodyLoop fuel [] s
        switchCasesLoop fuel endKind (cases ++ [Case.mk none body]) s
      | k => .error (.ExpectedOneOf ["`case`", "`default`"]
          (displayTokenKind k) s.current.span, s)

/-- A `switch` case body: statements until the next `case`, `default` or
`}` (`mod.rs` lines 596-601). -/
def caseBodyLoop (fuel : Nat) (acc : List Statement) (s : State) :
    PM (List Statement × State) :=
  match fuel with
  | 0 => .error (.OutOfFuel, s)
  | fuel + 1 =>
    match s.current.kind with
    | .Case | .Default | .RightBrace => .ok (acc, s)
    | _ => do
      let (st, s) ← statement fuel s
      caseBodyLoop fuel (acc ++ [st]) s

/-- A colon-form `if`/`elseif` body: statements until `elseif`, `else` or
`endif` (`mod.rs` lines 660-666). -/
def colonIfBlock (fuel : Nat) (acc : List Statement) (s : State) :
    PM (List Statement × State) :=
  match fuel with
  | 0 => .error (.OutOfFuel, s)
  | fuel + 1 =>
    match s.current.kind with
    | .ElseIf | .Else | .EndIf => .ok (acc, s)
    | _ => do
      let (st, s) ← statement fuel s
      colonIfBlock fuel (acc ++ [st]) s

/-- The colon-form `elseif` loop (`mod.rs` lines 669-691). -/
def colonElseIfLoop (fuel : Nat) (acc : List ElseIf) (s : State) :
    PM (List ElseIf × State) :=
  match fuel with
  | 0 => .error (.OutOfFuel, s)
  | fuel + 1 =>
    if s.current.kind == .ElseIf then do
      let s := s.next
      let s ← lparen s
      let (condition, s) ← expression fuel .Lowest s
      let s ← rparen s
      let s ← colon s
      let (body, s) ← colonIfBlock fuel [] s
      colonElseIfLoop fuel (acc ++ [ElseIf.mk condition body]) s
    else .ok (acc, s)

/-- The braced `elseif` loop (`mod.rs` lines 731-751). -/
def braceElseIfLoop (fuel : Nat) (acc : List ElseIf) (s : State) :
    PM (List ElseIf × State) :=
  match fuel with
  | 0 => .error (.OutOfFuel, s)
  | fuel + 1 =>
    if s.current.kind == .ElseIf then do
      let s := s.next
      let s ← lparen s
      let (condition, s) ← expression fuel .Lowest s
      let s ← rparen s
      let s ← lbrace s
      let (body, s) ← block fuel .RightBrace [] s
      let s ← rbrace s
      braceElseIfLoop fuel (acc ++ [ElseIf.mk condition body]) s
    else .ok (acc, s)

/-- The `echo` value loop (`mod.rs` lines 782-791). -/
def echoLoop (fuel : Nat) (values : List Expression) (s : State) :
    PM (List Expression × State) :=
  match fuel with
  | 0 => .error (.OutOfFuel, s)
  | fuel + 1 => do
    let (e, s) ← expression fuel .Lowest s
    let values := values ++ [e]
    if s.current.kind == .Comma then echoLoop fuel values s.next
    else .ok (values, s)

/-- The `global` variable loop (`mod.rs` lines 345-355). -/
def globalLoop (fuel : Nat) (vars : List BStr) (s : State) :
    PM (List BStr × State) :=
  match fuel with
  | 0 => .error (.OutOfFuel, s)
  | fuel + 1 => do
    let (v, s) ← var s
    let vars := vars ++ [v]
    if s.current.kind == .Comma then globalLoop fuel vars s.next
    else .ok (vars, s)

/-- The static-variable loop (`mod.rs` lines 363-385). -/
def staticVarsLoop (fuel : Nat) (vars : List StaticVar) (s : State) :
    PM (List StaticVar × State) :=
  match fuel with
  | 0 => .error (.OutOfFuel, s)
  | fuel + 1 => do
    let (v, s) ← var s
    let (dflt, s) ←
      if s.current.kind == .Equals then do
        let s := s.next
        let (e, s) ← expression fuel .Lowest s
        .ok (some e, s)
      else .ok (none, s)
    let vars := vars ++ [StaticVar.mk (.Variable v) dflt]
    if s.current.kind == .Comma then staticVarsLoop fuel vars s.next
    else .ok (vars, s)

/-- The `declare` item loop (`mod.rs` lines 303-320). -/
def declareLoop (fuel : Nat) (items : List DeclareItem) (s : State) :
    PM (List DeclareItem × State) :=
  match fuel with
  | 0 => .error (.OutOfFuel, s)
  | fuel + 1 => do
    let (key, s) ← ident s
    let s ← expectKind .Equals s
    let (value, s) ← expectLiteral s
    let items := items ++ [DeclareItem.mk key value]
    if s.current.kind == .Comma then declareLoop fuel items s.next
    else .ok (items, s)

/-- The `catch` clause loop of `try` (`mod.rs` lines 855-878). -/
def catchLoop (fuel : Nat) (acc : List Catch) (s : State) :
    PM (List Catch × State) :=
  match fuel with
  | 0 => .error (.OutOfFuel, s)
  | fuel + 1 =>
    if s.current.kind == .Catch then do
      let s := s.next
      let s ← lparen s
      let (types, s) ← caughtTypes fuel [] s
      let (varE, s) ←
        if s.current.kind == .RightParen then .ok (none, s)
        else do
          let (e, s) ← expression fuel .Lowest s
          (.ok (some e, s) : PM (Option Expression × State))
      let s ← rparen s
      let s ← lbrace s
      let (body, s) ← block fuel .RightBrace [] s
      let s ← rbrace s
      catchLoop fuel (acc ++ [Catch.mk types varE body]) s
    else .ok (acc, s)

/-- Modelled from the spec: `try_block_caught_type_string`
(`parser/internal`): a `|`-separated union of caught type names (§4.3
"Each `catch` parses a union of types"). -/
def caughtTypes (fuel : Nat) (acc : List BStr) (s : State) :
    PM (List BStr × State) :=
  match fuel with
  | 0 => .error (.OutOfFuel, s)
  | fuel + 1 => do
    let (n, s) ← fullName s
    let acc := acc ++ [n]
    if s.current.kind == .Pipe then caughtTypes fuel acc s.next
    else .ok (acc, s)

/-- The group-use item loop (`mod.rs` lines 85-103): items until `}`, a
comma continues the loop, and a missing comma simply re-tests. -/
def groupUseLoop (fuel : Nat) (acc : List UseItem) (s : State) :
    PM (List UseItem × State) :=
  match fuel with
  | 0 => .error (.OutOfFuel, s)
  | fuel + 1 =>
    if s.current.kind == .RightBrace then .ok (acc, s)
    else do
      let (name, s) ← fullName s
      let (aliasN, s) ←
        if s.current.kind == .As then do
          let s := s.next
          let (a, s) ← ident s
          .ok (some a, s)
        else .ok (none, s)
      let acc := acc ++ [UseItem.mk name aliasN]
      if s.current.kind == .Comma then groupUseLoop fuel acc s.next
      else groupUseLoop fuel acc s

/-- The plain `use` item loop (`mod.rs` lines 114-136): items until the
closing `;` (or eof), a comma continues the loop. -/
def useListLoop (fuel : Nat) (acc : List UseItem) (s : State) :
    PM (List UseItem × State) :=
  match fuel with
  | 0 => .error (.OutOfFuel, s)
  | fuel + 1 =>
    if s.isEof then .ok (acc, s)
    else do
      let (name, s) ← fullName s
      let (aliasN, s) ←
        if s.current.kind == .As then do
          let s := s.next
          let (a, s) ← ident s
          .ok (some a, s)
        else .ok (none, s)
      let acc := acc ++ [UseItem.mk name aliasN]
      if s.current.kind == .Comma then useListLoop fuel acc s.next
      else do
        let s ← semi s
        .ok (acc, s)

/-- The top-level `const` item loop (`mod.rs` lines 146-163). -/
def constListLoop (fuel : Nat) (acc : List ConstItem) (s : State) :
    PM (List ConstItem × State) :=
  match fuel with
  | 0 => .error (.OutOfFuel, s)
  | fuel + 1 => do
    let (name, s) ← ident s
    let s ← expectKind .Equals s
    let (value, s) ← expression fuel .Lowest s
    let acc := acc ++ [ConstItem.mk name value]
    if s.current.kind == .Comma then constListLoop fuel acc s.next
    else .ok (acc, s)

/-- Modelled from the spec: `block` (`parser/internal`): statements until
the given terminator kind (§4.3 "Block parsing receives an explicit
terminator token kind … and accumulates statements until that
terminator"). -/
def block (fuel : Nat) (endKind : TokenKind) (acc : List Statement) (s : State) :
    PM (List Statement × State) :=
  match fuel with
  | 0 => .error (.OutOfFuel, s)
  | fuel + 1 =>
    if s.current.kind == endKind then .ok (acc, s)
    else do
      let (st, s) ← statement fuel s
      block fuel endKind (acc ++ [st]) s

/-- The `function` dispatch of `Parser::statement` once the peek guard
has matched (`mod.rs` lines 255-280 / 205-231): on `function &` the token
after the `&` decides between a named function declaration and an
expression-statement (the expression-statement path `return`s, bypassing
the trailing comment skip); otherwise the named declaration is parsed. -/
def statementFunction (fuel : Nat) (s : State) : PM (Statement × State) :=
  match fuel with
  | 0 => .error (.OutOfFuel, s)
  | fuel + 1 =>
    if s.peek.kind == .Ampersand then
      match s.iterFirst with
      | some t =>
        if isIdentifierKind t.kind then andSkipComments (functionDecl fuel s)
        else exprStatement fuel s
      | none => andSkipComments (functionDecl fuel s)
    else andSkipComments (functionDecl fuel s)

/-- The `if` arm of `Parser::statement` (`mod.rs` lines 646-777), from the
`if` token: condition in parentheses, then either the colon form (with
colon-form `elseif`/`else` and `endif;`) or the braced/single-statement
form; the brace form without `else` `return`s, bypassing the trailing
comment skip. -/
def statementIf (fuel : Nat) (s : State) : PM (Statement × State) :=
  match fuel with
  | 0 => .error (.OutOfFuel, s)
  | fuel + 1 => do
    let s := s.next
    let s ← lparen s
    let (condition, s) ← expression fuel .Lowest s
    let s ← rparen s
    if s.current.kind == .Colon then
      andSkipComments (do
        let s := s.next
        let (thenB, s) ← colonIfBlock fuel [] s
        let (elseIfs, s) ← colonElseIfLoop fuel [] s
        let (elseB, s) ←
          if s.current.kind == .Else then do
            let s := s.next
            let s ← colon s
            let (b, s) ← block fuel .EndIf [] s
            .ok (some b, s)
          else .ok (none, s)
        let s ← expectKind .EndIf s
        let s ← semi s
        .ok (.If condition thenB elseIfs elseB, s))
    else do
      let (bodyEnd, s) :=
        if s.current.kind == .LeftBrace then (TokenKind.RightBrace, s.next)
        else (TokenKind.SemiColon, s)
      let (thenB, s) ← block fuel bodyEnd [] s
      let s ← if bodyEnd == TokenKind.RightBrace then rbrace s else .ok s
      let (elseIfs, s) ← braceElseIfLoop fuel [] s
      if s.current.kind == .Else then do
        let s ← expectKind .Else s
        let s ← lbrace s
        let (elseB, s) ← block fuel .RightBrace [] s
        let s ← rbrace s
        andSkipComments (.ok (.If condition thenB elseIfs (some elseB), s))
      else .ok (.If condition thenB elseIfs none, s)

/-- The `return` arm of `Parser::statement` (`mod.rs` lines 820-838), from
the `return` token: with no immediate `;` the value expression is parsed
with `.ok()` — a failure is discarded, the value becomes `None`, and the
`;` is expected at whatever state the attempt left. -/
def statementReturn (fuel : Nat) (s : State) : PM (Statement × State) :=
  match fuel with
  | 0 => .error (.OutOfFuel, s)
  | fuel + 1 =>
    let s := s.next
    if s.current.kind == .SemiColon then do
      let s ← semi s
      .ok (.Return none, s)
    else
      match expression fuel .Lowest s with
      | .ok (e, s) => do
        let s ← semi s
        .ok (.Return (some e), s)
      | .error (_, s) => do
        let s ← semi s
        .ok (.Return none, s)

/-- The `try` arm of `Parser::statement` (`mod.rs` lines 844-899), from
the `try` token: braced body, the `catch` clauses, an optional `finally`;
with no catch clause and no `finally` the result is the error
`TryWithoutCatchOrFinally` carrying the span of the `try` token. -/
def statementTry (fuel : Nat) (s : State) : PM (Statement × State) :=
  match fuel with
  | 0 => .error (.OutOfFuel, s)
  | fuel + 1 => do
    let startSpan := s.current.span
    let s := s.next
    let s ← lbrace s
    let (body, s) ← block fuel .RightBrace [] s
    let s ← rbrace s
    let (catches, s) ← catchLoop fuel [] s
    let (finallyB, s) ← finallyOpt fuel s
    tryFinish startSpan body catches finallyB s

/-- The optional `finally` clause of `try` (`mod.rs` lines 880-888). -/
def finallyOpt (fuel : Nat) (s : State) : PM (Option (List Statement) × State) :=
  match fuel with
  | 0 => .error (.OutOfFuel, s)
  | fuel + 1 =>
    if s.current.kind == .Finally then do
      let s := s.next
      let s ← lbrace s
      let (b, s) ← block fuel .RightBrace [] s
      let s ← rbrace s
      .ok (some b, s)
    else .ok (none, s)

/-- `Parser::statement` (`mod.rs` lines 189-919): attribute gathering,
then the dispatch match; every non-`return`ing arm flows into the trailing
`state.skip_comments()` (`andSkipComments`), the two `return` paths do
not. -/
def statement (fuel : Nat) (s : State) : PM (Statement × State) :=
  match fuel with
  | 0 => .error (.OutOfFuel, s)
  | fuel + 1 => do
    let (hasAttributes, s) ← gatherAttributes s
    if hasAttributes then
      match s.current.kind with
      | .Abstract | .Readonly | .Final | .Class =>
        andSkipComments (classDefinition fuel s)
      | .Interface => andSkipComments (interfaceDefinition fuel s)
      | .Trait => andSkipComments (traitDefinition fuel s)
      | .Enum => andSkipComments (enumDefinition fuel s)
      | .Function =>
        if functionPeekGuard s.peek.kind then statementFunction fuel s
        else .error (.ExpectedItemDefinitionAfterAttributes s.current.span, s)
      | _ => .error (.ExpectedItemDefinitionAfterAttributes s.current.span, s)
    else
      match s.current.kind with
      | .Abstract | .Readonly | .Final | .Class =>
        andSkipComments (classDefinition fuel s)
      | .Interface => andSkipComments (interfaceDefinition fuel s)
      | .Trait => andSkipComments (traitDefinition fuel s)
      | .Enum => andSkipComments (enumDefinition fuel s)
      | .Function =>
        if functionPeekGuard s.peek.kind then statementFunction fuel s
        else andSkipComments (exprStatement fuel s)
      | .Goto =>
        andSkipComments (do
          let s := s.next
          let (label, s) ← ident s
          let s ← semi s
          .ok (.Goto label, s))
      | .Identifier _ =>
        if s.peek.kind == .Colon then
          andSkipComments (do
            let (label, s) ← ident s
            let s ← colon s
            .ok (.Label label, s))
        else andSkipComments (exprStatement fuel s)
      | .Declare =>
        andSkipComments (do
          let s := s.next
          let s ← lparen s
          let (declares, s) ← declareLoop fuel [] s
          let s ← rparen s
          if s.current.kind == .LeftBrace then do
            let s := s.next
            let (b, s) ← block fuel .RightBrace [] s
            let s ← rbrace s
            .ok (.Declare declares b, s)
          else if s.current.kind == .Colon then do
            let s ← colon s
            let (b, s) ← block fuel .EndDeclare [] s
            let s ← expectKind .EndDeclare s
            let s ← semi s
            .ok (.Declare declares b, s)
          else do
            let s ← semi s
            .ok (.Declare declares [], s))
      | .Global =>
        andSkipComments (do
          let s := s.next
          let (vars, s) ← globalLoop fuel [] s
          let s ← semi s
          .ok (.Global vars, s))
      | .Static =>
        if isVariableKind s.peek.kind then
          andSkipComments (do
            let s := s.next
            let (vars, s) ← staticVarsLoop fuel [] s
            let s ← semi s
            .ok (.Static vars, s))
        else andSkipComments (exprStatement fuel s)
      | .InlineHtml b => andSkipComments (.ok (.InlineHtml b, s.next))
      | .SingleLineComment b => andSkipComments (.ok (.Comment b, s.next))
      | .HashMarkComment b => andSkipComments (.ok (.Comment b, s.next))
      | .MultiLineComment b => andSkipComments (.ok (.Comment b, s.next))
      | .DocumentComment b => andSkipComments (.ok (.Comment b, s.next))
      | .Do =>
        andSkipComments (do
          let s := s.next
          let s ← lbrace s
          let (body, s) ← block fuel .RightBrace [] s
          let s ← rbrace s
          let s ← expectKind .While s
          let s ← lparen s
          let (condition, s) ← expression fuel .Lowest s
          let s ← rparen s
          let s ← semi s
          .ok (.DoWhile condition body, s))
      | .While =>
        andSkipComments (do
          let s := s.next
          let s ← lparen s
          let (condition, s) ← expression fuel .Lowest s
          let s ← rparen s
          if s.current.kind == .Colon then do
            let s ← colon s
            let (body, s) ← block fuel .EndWhile [] s
            let s ← expectKind .EndWhile s
            let s ← semi s
            .ok (.While condition body, s)
          else do
            let s ← lbrace s
            let (body, s) ← block fuel .RightBrace [] s
            let s ← rbrace s
            .ok (.While condition body, s))
      | .Include =>
        andSkipComments (do
          let kind := IncludeKind.ofToken s.current.kind
          let s := s.next
          let (path, s) ← expression fuel .Lowest s
          let s ← semi s
          .ok (.Include kind path, s))
      | .IncludeOnce =>
        andSkipComments (do
          let kind := IncludeKind.ofToken s.current.kind
          let s := s.next
          let (path, s) ← expression fuel .Lowest s
          let s ← semi s
          .ok (.Include kind path, s))
      | .Require =>
        andSkipComments (do
          let kind := IncludeKind.ofToken s.current.kind
          let s := s.next
          let (path, s) ← expression fuel .Lowest s
          let s ← semi s
          .ok (.Include kind path, s))
      | .RequireOnce =>
        andSkipComments (do
          let kind := IncludeKind.ofToken s.current.kind
          let s := s.next
          let (path, s) ← expression fuel .Lowest s
          let s ← semi s
          .ok (.Include kind path, s))
      | .For =>
        andSkipComments (do
          let s := s.next
          let s ← lparen s
          let (init, s) ←
            if s.current.kind == .SemiColon then .ok (none, s)
            else do
              let (e, s) ← expression fuel .Lowest s
              (.ok (some e, s) : PM (Option Expression × State))
          let s ← semi s
          let (condition, s) ←
            if s.current.kind == .SemiColon then .ok (none, s)
            else do
              let (e, s) ← expression fuel .Lowest s
              (.ok (some e, s) : PM (Option Expression × State))
          let s ← semi s
          let (loopE, s) ←
            if s.current.kind == .RightParen then .ok (none, s)
            else do
              let (e, s) ← expression fuel .Lowest s
              (.ok (some e, s) : PM (Option Expression × State))
          let s ← rparen s
          if s.current.kind == .Colon then do
            let s ← colon s
            let (thenB, s) ← block fuel .EndFor [] s
            let s ← expectKind .EndFor s
            let s ← semi s
            .ok (.For init condition loopE thenB, s)
          else do
            let s ← lbrace s
            let (thenB, s) ← block fuel .RightBrace [] s
            let s ← rbrace s
            .ok (.For init condition loopE thenB, s))
      | .Foreach =>
        andSkipComments (do
          let s := s.next
          let s ← lparen s
          let (expr, s) ← expression fuel .Lowest s
          let s ← expectKind .As s
          let (byRef, s) :=
            if s.current.kind == .Ampersand then (true, s.next) else (false, s)
          let (valueVar, s) ← expression fuel .Lowest s
          if s.current.kind == .DoubleArrow then do
            let s := s.next
            let (byRef2, s) :=
              if s.current.kind == .Ampersand then (true, s.next) else (false, s)
            let (valueVar2, s) ← expression fuel .Lowest s
            foreachRest fuel expr byRef2 (some valueVar) valueVar2 s
          else foreachRest fuel expr byRef none valueVar s)
      | .Switch =>
        andSkipComments (do
          let s := s.next
          let s ← lparen s
          let (condition, s) ← expression fuel .Lowest s
          let s ← rparen s
          if s.current.kind == .Colon then do
            let s ← colon s
            let (cases, s) ← switchCasesLoop fuel .EndSwitch [] s
            let s ← expectKind .EndSwitch s
            let s ← semi s
            .ok (.Switch condition cases, s)
          else do
            let s ← lbrace s
            let (cases, s) ← switchCasesLoop fuel .RightBrace [] s
            let s ← rbrace s
            .ok (.Switch condition cases, s))
      | .If => statementIf fuel s
      | .Echo =>
        andSkipComments (do
          let s := s.next
          let (values, s) ← echoLoop fuel [] s
          let s ← semi s
          .ok (.Echo values, s))
      | .Continue =>
        andSkipComments (do
          let s := s.next
          let (num, s) ←
            if s.current.kind == .SemiColon then .ok (none, s)
            else do
              let (e, s) ← expression fuel .Lowest s
              (.ok (some e, s) : PM (Option Expression × State))
          let s ← semi s
          .ok (.Continue num, s))
      | .Break =>
        andSkipComments (do
          let s := s.next
          let (num, s) ←
            if s.current.kind == .SemiColon then .ok (none, s)
            else do
              let (e, s) ← expression fuel .Lowest s
              (.ok (some e, s) : PM (Option Expression × State))
          let s ← semi s
          .ok (.Break num, s))
      | .Return => andSkipComments (statementReturn fuel s)
      | .SemiColon => andSkipComments (.ok (.Noop, s.next))
      | .Try => andSkipComments (statementTry fuel s)
      | .LeftBrace =>
        andSkipComments (do
          let s := s.next
          let (body, s) ← block fuel .RightBrace [] s
          let s ← rbrace s
          .ok (.Block body, s))
      | _ => andSkipComments (exprStatement fuel s)

/-- `Parser::top_level_statement` (`mod.rs` lines 60-187). -/
def topLevelStatement (fuel : Nat) (s : State) : PM (Statement × State) :=
  match fuel with
  | 0 => .error (.OutOfFuel, s)
  | fuel + 1 =>
    let s := s.skipComments
    match s.current.kind with
    | .Namespace => namespaceStmt fuel s
    | .Use => do
      let s := s.next
      let (kind, s) :=
        match s.current.kind with
        | .Function => (UseKind.Function, s.next)
        | .Const => (UseKind.Const, s.next)
        | _ => (UseKind.Normal, s)
      if s.peek.kind == .LeftBrace then do
        let (pfx, s) ← fullName s
        let s := s.next
        let (uses, s) ← groupUseLoop fuel [] s
        let s ← rbrace s
        let s ← semi s
        .ok (.GroupUse pfx kind uses, s)
      else do
        let (uses, s) ← useListLoop fuel [] s
        .ok (.Use uses kind, s)
    | .Const => do
      let s := s.next
      let (constants, s) ← constListLoop fuel [] s
      let s ← semi s
      .ok (.Constant constants, s)
    | .HaltCompiler =>
      let s := s.next
      (match s.current.kind with
      | .InlineHtml content => .ok (.HaltCompiler (some content), s.next)
      | _ => .ok (.HaltCompiler none, s))
    | _ => statement fuel s

/-- The `while` loop of `Parser::parse` (`mod.rs` lines 37-55): skip
open/close tags, gather comments, stop at eof, and accumulate top-level
statements. -/
def parseLoop (fuel : Nat) (acc : List Statement) (s : State) :
    PM (List Statement × State) :=
  match fuel with
  | 0 => .error (.OutOfFuel, s)
  | fuel + 1 =>
    if s.current.kind == .Eof then .ok (acc, s)
    else
      match s.current.kind with
      | .OpenTag _ => parseLoop fuel acc s.next
      | .CloseTag => parseLoop fuel acc s.next
      | _ =>
        let s := s.gatherComments
        if s.isEof then .ok (acc, s)
        else do
          let (st, s) ← topLevelStatement fuel s
          parseLoop fuel (acc ++ [st]) s

end

/-- Fuel that dominates the call depth of the parser on a given token
list (each call level consumes at least one unit, and the recursion depth
is bounded by the token count times a small constant). -/
def fuelFor (toks : List Token) : Nat := 16 * toks.length + 64

/-- `Parser::parse` (`mod.rs` lines 32-58): run the top-level loop over
the token list and return the program, dropping the final state (the error
state is internal to the embedding). -/
def parse (toks : List Token) : Except ParseError Program :=
  match parseLoop (fuelFor toks) [] ⟨toks⟩ with
  | .ok (prog, _) => .ok prog
  | .error (e, _) => .error e


/-- Tokens for the end-to-end scenarios: the kinds in source order, with
span `(i, i+1)` for the token at index `i` (any strictly increasing
assignment satisfies the spec's span invariant; the claims identify error
positions by the offending token, here its index). -/
def mkTokens (ks : List TokenKind) : List Token :=
  ks.enum.map (fun p => ⟨p.2, (p.1, p.1 + 1)⟩)

/-- The token stream of `<?php $x = 1 + 2 * 3;`. -/
def c1Tokens : List Token := mkTokens
  [.OpenTag .Full, .Variable (asciiBytes "x"), .Equals,
   .LiteralInteger (asciiBytes "1"), .Plus, .LiteralInteger (asciiBytes "2"),
   .Asterisk, .LiteralInteger (asciiBytes "3"), .SemiColon, .Eof]

/-- The token stream of `<?php try \x7b f(); \x7d finally \x7b g(); \x7d`. -/
def c2Tokens : List Token := mkTokens
  [.OpenTag .Full, .Try, .LeftBrace, .Identifier (asciiBytes "f"), .LeftParen,
   .RightParen, .SemiColon, .RightBrace, .Finally, .LeftBrace,
   .Identifier (asciiBytes "g"), .LeftParen, .RightParen, .SemiColon,
   .RightBrace, .Eof]

/-- The token stream of
`<?php match ($x) \x7b 1, 2 => "a", default => "b", default => "c" \x7d;`;
the second `default` is the token at index 16, span `(16, 17)`. -/
def c3Tokens : List Token := mkTokens
  [.OpenTag .Full, .Match, .LeftParen, .Variable (asciiBytes "x"), .RightParen,
   .LeftBrace, .LiteralInteger (asciiBytes "1"), .Comma,
   .LiteralInteger (asciiBytes "2"), .DoubleArrow, .LiteralString (asciiBytes "a"),
   .Comma, .Default, .DoubleArrow, .LiteralString (asciiBytes "b"), .Comma,
   .Default, .DoubleArrow, .LiteralString (asciiBytes "c"), .RightBrace,
   .SemiColon, .Eof]

/-- The token stream of `<?php return @;`: the expression after `return`
consumes the `@` and then fails at the `;`. -/
def c4Tokens : List Token := mkTokens
  [.OpenTag .Full, .Return, .At, .SemiColon, .Eof]

/-- The token stream of
`<?php if ($a) \x7b echo 1; \x7d elseif ($b): echo 2; endif;`; the
`elseif` is the token at index 10, the `:` after `($b)` the token at
index 14. -/
def c5Tokens : List Token := mkTokens
  [.OpenTag .Full, .If, .LeftParen, .Variable (asciiBytes "a"), .RightParen,
   .LeftBrace, .Echo, .LiteralInteger (asciiBytes "1"), .SemiColon, .RightBrace,
   .ElseIf, .LeftParen, .Variable (asciiBytes "b"), .RightParen, .Colon,
   .Echo, .LiteralInteger (asciiBytes "2"), .SemiColon, .EndIf, .SemiColon, .Eof]

/-- The token stream of `<?php function &name() \x7b\x7d function () \x7b\x7d;`. -/
def c6Tokens : List Token := mkTokens
  [.OpenTag .Full, .Function, .Ampersand, .Identifier (asciiBytes "name"),
   .LeftParen, .RightParen, .LeftBrace, .RightBrace,
   .Function, .LeftParen, .RightParen, .LeftBrace, .RightBrace, .SemiColon, .Eof]

/-- The token stream of `<?php [,1,,2];` (a leading comma and a double
comma inside a short array literal). -/
def c10Tokens : List Token := mkTokens
  [.OpenTag .Full, .LeftBracket, .Comma, .LiteralInteger (asciiBytes "1"),
   .Comma, .Comma, .LiteralInteger (asciiBytes "2"), .RightBracket,
   .SemiColon, .Eof]


/-- The number of default arms carried by a `match` expression node (the
AST makes it an `Option`, so it is 0 or 1 by construction). -/
def matchDefaultCount : Expression → Nat
  | .MatchExpr _ d _ => if d.isSome then 1 else 0
  | _ => 0

/-- Witness tokens for C9: `"hi$n"` with an empty literal run before the
closing quote. -/
def c9WitnessState : State :=
  ⟨[⟨.StringPart (asciiBytes "hi"), (0, 1)⟩, ⟨.Variable (asciiBytes "n"), (1, 2)⟩,
    ⟨.StringPart [], (2, 3)⟩, ⟨.DoubleQuote, (3, 4)⟩, ⟨.Eof, (4, 5)⟩]⟩

@[simp] theorem pm_bind_ok {α β : Type} (a : α) (f : α → PM β) :
    (Except.ok a >>= f) = f a := rfl

@[simp] theorem pm_bind_error {α β : Type} (e : ParseError × State)
    (f : α → PM β) : ((Except.error e : PM α) >>= f) = Except.error e := rfl

theorem pm_bind_eq_ok {α β : Type} {x : PM α} {f : α → PM β} {r : β}
    (h : (x >>= f) = .ok r) : ∃ a, x = .ok a ∧ f a = .ok r := by
  cases x with
  | ok a => exact ⟨a, rfl, h⟩
  | error e => simp at h

theorem gatherAttributes_no_attr (s : State)
    (h : (s.current.kind == TokenKind.Attribute) = false) :
    gatherAttributes s = .ok (false, s) := by
  rw [gatherAttributes, gatherAttributesAux, h]
  rfl

/-- Counterexample for C7: byte `0x00` is a control byte but is rendered
as `\0` (not `\x00`), and byte `0x1b` (ESC) is a control byte but is
printed verbatim, so the claimed rendering differs from the code's. -/
theorem c7_debug_counterexample :
    debugByteString [0x00, 0x1b] = [34, 92, 48, 27, 34] ∧
    debugByteString [0x00, 0x1b] ≠ asciiBytes "\"\\x00\\x1b\"" := by
  constructor
  · rfl
  · decide

/-- C7 amended: the Debug rendering wraps the bytes in double quotes and
escapes per byte: `0x00` as `\0`; newline, carriage return, tab as `\n`,
`\r`, `\t`; the bytes `0x01`–`0x19` (less the three C-escaped ones) and
`0x7f`–`0xff` as `\xNN` with lowercase hex; printable ASCII and the
control bytes `0x1a`–`0x1f` verbatim. -/
theorem c7_debug_rendering :
    (∀ b : Nat, b < 256 →
      (b = 0 → debugEscapeByte b = asciiBytes "\\0") ∧
      (b = 10 → debugEscapeByte b = asciiBytes "\\n") ∧
      (b = 13 → debugEscapeByte b = asciiBytes "\\r") ∧
      (b = 9 → debugEscapeByte b = asciiBytes "\\t") ∧
      ((1 ≤ b ∧ b ≤ 0x19 ∧ b ≠ 9 ∧ b ≠ 10 ∧ b ≠ 13) ∨ (0x7f ≤ b ∧ b ≤ 0xff) →
        debugEscapeByte b = [92, 120, hexDigit (b / 16), hexDigit (b % 16)]) ∧
      ((0x20 ≤ b ∧ b ≤ 0x7e) ∨ (0x1a ≤ b ∧ b ≤ 0x1f) →
        debugEscapeByte b = [b])) ∧
    (∀ bs : BStr, debugByteString bs = 34 :: (bs.map debugEscapeByte).flatten ++ [34]) := by
  refine ⟨fun b _ => ⟨?_, ?_, ?_, ?_, ?_, ?_⟩, fun _ => rfl⟩
  · rintro rfl; rfl
  · rintro rfl; rfl
  · rintro rfl; rfl
  · rintro rfl; rfl
  · intro h
    simp only [debugEscapeByte]
    rw [if_neg (by omega), if_neg (by omega), if_neg (by omega),
      if_neg (by omega), if_pos (by omega)]
  · intro h
    simp only [debugEscapeByte]
    rw [if_neg (by omega), if_neg (by omega), if_neg (by omega),
      if_neg (by omega), if_neg (by omega)]

/-- Witness for C7: the high byte `0x90` is escaped as `\x90`. -/
theorem c7_debug_rendering_witness :
    debugEscapeByte 0x90 = [92, 120, hexDigit (0x90 / 16), hexDigit (0x90 % 16)] :=
  (c7_debug_rendering.1 0x90 (by decide)).2.2.2.2.1 (Or.inr (by decide))

/-- C8: the fixed stringification of `TokenKind`: `::`, `[end of file]`,
`InlineHtml`, raw bytes for identifier, comment and literal kinds, and
`$name` for variables. -/
theorem c8_display_fixed :
    displayTokenKind .DoubleColon = asciiBytes "::" ∧
    displayTokenKind .Eof = asciiBytes "[end of file]" ∧
    (∀ v : BStr, displayTokenKind (.InlineHtml v) = asciiBytes "InlineHtml") ∧
    (∀ v : BStr, displayTokenKind (.Identifier v) = displayByteString v) ∧
    (∀ v : BStr, displayTokenKind (.QualifiedIdentifier v) = displayByteString v) ∧
    (∀ v : BStr, displayTokenKind (.FullyQualifiedIdentifier v) = displayByteString v) ∧
    (∀ v : BStr, displayTokenKind (.SingleLineComment v) = displayByteString v) ∧
    (∀ v : BStr, displayTokenKind (.HashMarkComment v) = displayByteString v) ∧
    (∀ v : BStr, displayTokenKind (.MultiLineComment v) = displayByteString v) ∧
    (∀ v : BStr, displayTokenKind (.DocumentComment v) = displayByteString v) ∧
    (∀ v : BStr, displayTokenKind (.LiteralString v) = displayByteString v) ∧
    (∀ v : BStr, displayTokenKind (.LiteralInteger v) = displayByteString v) ∧
    (∀ v : BStr, displayTokenKind (.LiteralFloat v) = displayByteString v) ∧
    (∀ v : BStr, displayTokenKind (.Variable v) = asciiBytes "$" ++ displayByteString v) :=
  ⟨rfl, rfl, fun _ => rfl, fun _ => rfl, fun _ => rfl, fun _ => rfl, fun _ => rfl,
   fun _ => rfl, fun _ => rfl, fun _ => rfl, fun _ => rfl, fun _ => rfl,
   fun _ => rfl, fun _ => rfl⟩

set_option maxRecDepth 100000 in
/-- C1: `<?php $x = 1 + 2 * 3;` parses to a single expression statement
`Infix(Variable x, =, Infix(1, +, Infix(2, *, 3)))`; in the precedence
table `=` binds loosest, `+` tighter, `*` tighter still, and the
assignment level is right-associative. -/
theorem c1_precedence :
    parse c1Tokens = .ok [.Expression (.Infix (.Variable (asciiBytes "x")) .Equals
      (.Infix (.LiteralInteger (asciiBytes "1")) .Plus
        (.Infix (.LiteralInteger (asciiBytes "2")) .Asterisk
          (.LiteralInteger (asciiBytes "3")))))] ∧
    (Precedence.infixPrec .Equals).toNat < (Precedence.infixPrec .Plus).toNat ∧
    (Precedence.infixPrec .Plus).toNat < (Precedence.infixPrec .Asterisk).toNat ∧
    (Precedence.infixPrec .Equals).associativity = some .Right :=
  ⟨rfl, by decide, by decide, rfl⟩

/-- C10: in the short-array loop a comma found where an element was
expected pushes `ArrayItem { key: None, value: Empty, unpack: false }` and
continues, and `<?php [,1,,2];` parses to the four-item array with
`Empty` at the positions of the missing elements. -/
theorem c10_short_array_empty_items :
    (∀ fuel : Nat, ∀ items : List ArrayItem, ∀ s : State,
      s.current.kind = .Comma →
      shortArrayLoop (fuel + 1) items s =
        shortArrayLoop fuel (items ++ [ArrayItem.mk none .Empty false]) s.next) ∧
    parse c10Tokens = .ok [.Expression (.Array
      [.mk none .Empty false,
       .mk none (.LiteralInteger (asciiBytes "1")) false,
       .mk none .Empty false,
       .mk none (.LiteralInteger (asciiBytes "2")) false])] := by
  constructor
  · intro fuel items s h
    rw [shortArrayLoop, h]
    rfl
  · set_option maxRecDepth 100000 in rfl

/-- Witness for C10 at a concrete comma state. -/
theorem c10_short_array_empty_items_witness :
    shortArrayLoop 4 [] ⟨[⟨.Comma, (0, 1)⟩, ⟨.RightBracket, (1, 2)⟩]⟩ =
      shortArrayLoop 3 [ArrayItem.mk none .Empty false]
        (State.next ⟨[⟨.Comma, (0, 1)⟩, ⟨.RightBracket, (1, 2)⟩]⟩) :=
  c10_short_array_empty_items.1 3 [] ⟨[⟨.Comma, (0, 1)⟩, ⟨.RightBracket, (1, 2)⟩]⟩ rfl



theorem ispVariable_expr (v : BStr) (s : State) (p : Option StrPart)
    (s' : State) (h : interpolatedStringVariable v s = .ok (p, s')) :
    ∃ e, p = some (.Expr e) := by
  rw [interpolatedStringVariable] at h
  repeat'
    first
    | split at h
    | (obtain ⟨_a, _h, h⟩ := pm_bind_eq_ok h)
  all_goals simp only [Except.ok.injEq, Prod.mk.injEq] at h
  all_goals exact ⟨_, h.1.symm⟩

theorem dollarLeftBracePart_expr (fuel : Nat) (s : State) (p : Option StrPart)
    (s' : State) (h : dollarLeftBracePart fuel s = .ok (p, s')) :
    ∃ e, p = some (.Expr e) := by
  cases fuel with
  | zero => simp [dollarLeftBracePart] at h
  | succ n =>
    rw [dollarLeftBracePart] at h
    repeat'
      first
      | split at h
      | (obtain ⟨_a, _h, h⟩ := pm_bind_eq_ok h)
    all_goals simp only [Except.ok.injEq, Prod.mk.injEq] at h
    all_goals exact ⟨_, h.1.symm⟩

set_option maxHeartbeats 1600000 in
theorem isp_part_const_nonempty (fuel : Nat) (s : State) (p : StrPart)
    (s' : State) (h : interpolatedStringPart fuel s = .ok (some p, s')) :
    ∀ b : BStr, p = .Const b → b ≠ [] := by
  intro b hb hbe
  subst hb
  subst hbe
  cases fuel with
  | zero => simp [interpolatedStringPart] at h
  | succ n =>
    rw [interpolatedStringPart] at h
    repeat'
      first
      | split at h
      | (obtain ⟨_a, _h, h⟩ := pm_bind_eq_ok h)
    all_goals
      first
      | (obtain ⟨e, he⟩ := ispVariable_expr _ _ _ _ h; simp at he)
      | (obtain ⟨e, he⟩ := dollarLeftBracePart_expr _ _ _ _ h; simp at he)
      | (simp only [Except.ok.injEq, Prod.mk.injEq, Option.some.injEq,
          StrPart.Const.injEq, reduceCtorEq, false_and, and_false] at h
         try (obtain ⟨rfl, -⟩ := h; simp_all))

theorem ispLoop_const_nonempty (fuel : Nat) (parts0 : List StrPart) (s : State)
    (res : List StrPart) (s' : State) (h : ispLoop fuel parts0 s = .ok (res, s'))
    (hinv : ∀ b : BStr, StrPart.Const b ∈ parts0 → b ≠ []) :
    ∀ b : BStr, StrPart.Const b ∈ res → b ≠ [] := by
  induction fuel generalizing parts0 s with
  | zero => simp [ispLoop] at h
  | succ n ih =>
    rw [ispLoop] at h
    split at h
    · simp only [Except.ok.injEq, Prod.mk.injEq] at h
      rw [← h.1]
      exact hinv
    · obtain ⟨⟨part, s1⟩, hp, h⟩ := pm_bind_eq_ok h
      cases part with
      | some p =>
        refine ih (parts0 ++ [p]) s1 h ?_
        intro b hb
        rcases List.mem_append.1 hb with hb | hb
        · exact hinv b hb
        · simp at hb
          subst hb
          exact isp_part_const_nonempty n s (.Const b) s1 hp b rfl
      | none => exact ih parts0 s1 h hinv

theorem hdLoop_const_nonempty (fuel : Nat) (parts0 : List StrPart) (s : State)
    (res : List StrPart) (s' : State) (h : hdLoop fuel parts0 s = .ok (res, s'))
    (hinv : ∀ b : BStr, StrPart.Const b ∈ parts0 → b ≠ []) :
    ∀ b : BStr, StrPart.Const b ∈ res → b ≠ [] := by
  induction fuel generalizing parts0 s with
  | zero => simp [hdLoop] at h
  | succ n ih =>
    rw [hdLoop] at h
    split at h
    · simp only [Except.ok.injEq, Prod.mk.injEq] at h
      rw [← h.1]
      exact hinv
    · obtain ⟨⟨part, s1⟩, hp, h⟩ := pm_bind_eq_ok h
      cases part with
      | some p =>
        refine ih (parts0 ++ [p]) s1 h ?_
        intro b hb
        rcases List.mem_append.1 hb with hb | hb
        · exact hinv b hb
        · simp at hb
          subst hb
          exact isp_part_const_nonempty n s (.Const b) s1 hp b rfl
      | none => exact ih parts0 s1 h hinv

/-- C9: every `Const` part of an interpolated string or heredoc built by
the parser holds a non-empty byte string (empty `StringPart` tokens
contribute no part). -/
theorem c9_no_empty_const_parts :
    (∀ fuel : Nat, ∀ s : State, ∀ parts : List StrPart, ∀ s' : State,
      interpolatedString fuel s = .ok (.InterpolatedString parts, s') →
      ∀ b : BStr, StrPart.Const b ∈ parts → b ≠ []) ∧
    (∀ fuel : Nat, ∀ s : State, ∀ parts : List StrPart, ∀ s' : State,
      heredocString fuel s = .ok (.InterpolatedString parts, s') →
      ∀ b : BStr, StrPart.Const b ∈ parts → b ≠ []) := by
  constructor
  · intro fuel s parts s' h
    cases fuel with
    | zero => simp [interpolatedString] at h
    | succ n =>
      rw [interpolatedString] at h
      obtain ⟨⟨parts0, s1⟩, hl, h⟩ := pm_bind_eq_ok h
      simp only [Except.ok.injEq, Prod.mk.injEq, Expression.InterpolatedString.injEq] at h
      rw [← h.1]
      exact ispLoop_const_nonempty n [] s parts0 s1 hl (by simp)
  · intro fuel s parts s' h
    cases fuel with
    | zero => simp [heredocString] at h
    | succ n =>
      rw [heredocString] at h
      obtain ⟨⟨parts0, s1⟩, hl, h⟩ := pm_bind_eq_ok h
      simp only [Except.ok.injEq, Prod.mk.injEq, Expression.InterpolatedString.injEq] at h
      rw [← h.1]
      exact hdLoop_const_nonempty n [] s.next parts0 s1 hl (by simp)

/-- Witness for C9 at a concrete interpolated string. -/
theorem c9_no_empty_const_parts_witness : asciiBytes "hi" ≠ ([] : BStr) :=
  c9_no_empty_const_parts.1 20 c9WitnessState
    [.Const (asciiBytes "hi"), .Expr (.Variable (asciiBytes "n"))] _
    rfl (asciiBytes "hi") (by simp)

set_option maxRecDepth 100000 in
set_option maxHeartbeats 800000 in
/-- C3: a second `default` arm in a `match` fails with
`MatchExpressionWithMultipleDefaultArms` at the span of the second
`default` token (the arm loop errors as soon as it meets `default` while
one was already recorded); the example fails at the second `default`
(token index 16); and a `Match` node cannot carry more than one default
arm. -/
theorem c3_match_multiple_defaults :
    parse c3Tokens = .error (.MatchExpressionWithMultipleDefaultArms (16, 17)) ∧
    (∀ fuel : Nat, ∀ arms : List MatchArm, ∀ d : DefaultMatchArm, ∀ s : State,
      (s.current.kind == TokenKind.RightBrace) = false →
      (s.skipComments).current.kind = .Default →
      matchArmsLoop (fuel + 1) arms (some d) s =
        .error (.MatchExpressionWithMultipleDefaultArms
          (s.skipComments).current.span, s.skipComments)) ∧
    (∀ cond : Expression, ∀ d : Option DefaultMatchArm, ∀ arms : List MatchArm,
      matchDefaultCount (.MatchExpr cond d arms) ≤ 1) := by
  refine ⟨rfl, ?_, ?_⟩
  · intro fuel arms d s h1 h2
    simp only [matchArmsLoop, h1, h2, Bool.false_eq_true, if_false, ite_false,
      Option.isSome_some]
    rfl
  · intro cond d arms
    cases d <;> simp [matchDefaultCount]

/-- Witness for C3 at a concrete state whose current token is a second
`default`. -/
theorem c3_match_multiple_defaults_witness :
    matchArmsLoop 4 [] (some (DefaultMatchArm.mk .Null))
      ⟨[⟨.Default, (5, 6)⟩, ⟨.DoubleArrow, (6, 7)⟩, ⟨.Eof, (7, 8)⟩]⟩ =
      .error (.MatchExpressionWithMultipleDefaultArms (5, 6),
        State.skipComments ⟨[⟨.Default, (5, 6)⟩, ⟨.DoubleArrow, (6, 7)⟩, ⟨.Eof, (7, 8)⟩]⟩) :=
  c3_match_multiple_defaults.2.1 3 [] (DefaultMatchArm.mk .Null)
    ⟨[⟨.Default, (5, 6)⟩, ⟨.DoubleArrow, (6, 7)⟩, ⟨.Eof, (7, 8)⟩]⟩ rfl rfl

set_option maxRecDepth 100000 in
/-- Counterexample for C4: in `<?php return @;` the expression sub-parse
after `return` fails (the `@` consumes its token and the nested expression
call rejects `;`), yet `parse` succeeds with `Return { value: None }` —
the error is not the result of `parse`. -/
theorem c4_return_discards_error_counterexample :
    parse c4Tokens = .ok [.Return none] ∧
    expression 50 .Lowest ⟨[⟨.At, (2, 3)⟩, ⟨.SemiColon, (3, 4)⟩, ⟨.Eof, (4, 5)⟩]⟩ =
      .error (.UnexpectedToken (asciiBytes ";") (3, 4),
        ⟨[⟨.SemiColon, (3, 4)⟩, ⟨.Eof, (4, 5)⟩]⟩) :=
  ⟨rfl, rfl⟩

set_option maxHeartbeats 3200000 in
/-- C4 amended (statement-level): the first error of a sub-parse is the
parser result except after `return`, whose value expression is parsed
with `.ok()`: if that expression fails, the error is discarded, the value
becomes `None`, and the `;` is expected at the state the failed attempt
left. -/
theorem c4_return_discards_error :
    ∀ fuel : Nat, ∀ s : State, ∀ e : ParseError, ∀ s2 s3 : State,
    s.current.kind = .Return →
    ((s.next).current.kind == TokenKind.SemiColon) = false →
    expression fuel .Lowest s.next = .error (e, s2) →
    semi s2 = .ok s3 →
    statement (fuel + 2) s = .ok (.Return none, s3.skipComments) := by
  intro fuel s e s2 s3 h1 h2 h3 h4
  rw [statement, gatherAttributes_no_attr s (by rw [h1]; rfl)]
  simp only [pm_bind_ok, h1]
  rw [statementReturn]
  simp only [h2, h3, h4, Bool.false_eq_true, if_false, ite_false, pm_bind_ok,
    andSkipComments]

/-- Witness for C4 at the tokens of `return @;`. -/
theorem c4_return_discards_error_witness :
    statement 52 ⟨[⟨.Return, (1, 2)⟩, ⟨.At, (2, 3)⟩, ⟨.SemiColon, (3, 4)⟩, ⟨.Eof, (4, 5)⟩]⟩ =
      .ok (.Return none, State.skipComments ⟨[⟨.Eof, (4, 5)⟩]⟩) :=
  c4_return_discards_error 50
    ⟨[⟨.Return, (1, 2)⟩, ⟨.At, (2, 3)⟩, ⟨.SemiColon, (3, 4)⟩, ⟨.Eof, (4, 5)⟩]⟩
    (.UnexpectedToken (asciiBytes ";") (3, 4))
    ⟨[⟨.SemiColon, (3, 4)⟩, ⟨.Eof, (4, 5)⟩]⟩ ⟨[⟨.Eof, (4, 5)⟩]⟩
    rfl rfl (by set_option maxRecDepth 100000 in rfl) rfl

set_option maxRecDepth 100000 in
/-- Counterexample for C5: the example does fail, but with "expected `{`"
at the span of the `:` after the `elseif` condition (token index 14), not
with "expected `}`" at the span of the `elseif` (token index 10). -/
theorem c5_mixed_if_counterexample :
    parse c5Tokens = .error (.ExpectedToken [.LeftBrace] (asciiBytes ":") (14, 15)) ∧
    (ParseError.ExpectedToken [.LeftBrace] (asciiBytes ":") (14, 15) ≠
      ParseError.ExpectedToken [.RightBrace] (displayTokenKind .ElseIf) (10, 11)) := by
  refine ⟨rfl, ?_⟩
  intro h
  simp only [ParseError.ExpectedToken.injEq, Prod.mk.injEq] at h
  omega

set_option maxRecDepth 100000 in
/-- C5 amended: mixing the braced `if` form with a colon-form `elseif`
fails: after the braced then-block, the `elseif` arm requires `{` and
fails at the `:`, reporting expected `{` at the colon's span. -/
theorem c5_mixed_if_error :
    parse c5Tokens = .error (.ExpectedToken [.LeftBrace] (asciiBytes ":") (14, 15)) := rfl


theorem tryFinish_ok_inv (sp : Span) (body : List Statement)
    (catches : List Catch) (fb : Option (List Statement)) (s : State)
    (b : List Statement) (c : List Catch) (f : Option (List Statement))
    (s' : State) (h : tryFinish sp body catches fb s = .ok (.Try b c f, s')) :
    c ≠ [] ∨ f ≠ none := by
  rw [tryFinish] at h
  by_cases hg : (catches.isEmpty && fb.isNone) = true
  · rw [if_pos hg] at h
    simp at h
  · rw [if_neg hg] at h
    simp only [Except.ok.injEq, Prod.mk.injEq, Statement.Try.injEq] at h
    obtain ⟨⟨-, hc, hf⟩, -⟩ := h
    rw [← hc, ← hf]
    by_cases hce : catches = []
    · subst hce
      right
      intro hfe
      rw [hfe] at hg
      exact hg rfl
    · exact Or.inl hce

theorem tryFinish_err_iff (sp : Span) (body : List Statement)
    (catches : List Catch) (fb : Option (List Statement)) (s : State) :
    tryFinish sp body catches fb s =
        .error (.TryWithoutCatchOrFinally sp, s) ↔
      catches = [] ∧ fb = none := by
  cases catches with
  | cons ch ct =>
    rw [tryFinish]
    rw [show ((ch :: ct).isEmpty && fb.isNone) = false from rfl]
    simp
  | nil =>
    cases fb with
    | some fbs =>
      rw [tryFinish]
      rw [show (List.isEmpty ([] : List Catch) &&
        (some fbs).isNone) = false from rfl]
      simp
    | none =>
      rw [tryFinish]
      rw [show (List.isEmpty ([] : List Catch) &&
        (none : Option (List Statement)).isNone) = true from rfl]
      simp

theorem statementTry_ok_inv (fuel : Nat) (s : State) (st : Statement)
    (s' : State) (h : statementTry fuel s = .ok (st, s')) :
    ∀ b c f, st = .Try b c f → c ≠ [] ∨ f ≠ none := by
  intro b c f hst
  subst hst
  cases fuel with
  | zero => simp [statementTry] at h
  | succ n =>
    rw [statementTry] at h
    obtain ⟨s1, h1, h⟩ := pm_bind_eq_ok h
    obtain ⟨⟨body, s2⟩, h2, h⟩ := pm_bind_eq_ok h
    obtain ⟨s3, h3, h⟩ := pm_bind_eq_ok h
    obtain ⟨⟨catches, s4⟩, h4, h⟩ := pm_bind_eq_ok h
    obtain ⟨⟨fb, s5⟩, h5, h⟩ := pm_bind_eq_ok h
    exact tryFinish_ok_inv _ _ _ _ _ _ _ _ _ h

theorem statementTry_err_iff (fuel : Nat) (sp : Span) (rest : List Token)
    (s1 : State) (body : List Statement) (s2 s3 s4 s5 : State)
    (catches : List Catch) (fb : Option (List Statement))
    (h1 : lbrace ⟨rest⟩ = .ok s1)
    (h2 : block fuel .RightBrace [] s1 = .ok (body, s2))
    (h3 : rbrace s2 = .ok s3)
    (h4 : catchLoop fuel [] s3 = .ok (catches, s4))
    (h5 : finallyOpt fuel s4 = .ok (fb, s5)) :
    (statementTry (fuel + 1) ⟨⟨.Try, sp⟩ :: rest⟩ =
        .error (.TryWithoutCatchOrFinally sp, s5)
      ↔ catches = [] ∧ fb = none) := by
  have hu : statementTry (fuel + 1) ⟨⟨.Try, sp⟩ :: rest⟩ =
      (do
        let s ← lbrace ⟨rest⟩
        let (body, s) ← block fuel .RightBrace [] s
        let s ← rbrace s
        let (catches, s) ← catchLoop fuel [] s
        let (fb, s) ← finallyOpt fuel s
        tryFinish sp body catches fb s) := rfl
  rw [hu, h1]
  simp only [pm_bind_ok]
  rw [h2]
  simp only [pm_bind_ok]
  rw [h3]
  simp only [pm_bind_ok]
  rw [h4]
  simp only [pm_bind_ok]
  rw [h5]
  simp only [pm_bind_ok]
  exact tryFinish_err_iff sp body catches fb s5

theorem statement_try_dispatch (fuel : Nat) (s : State)
    (h : s.current.kind = .Try) :
    statement (fuel + 1) s = andSkipComments (statementTry fuel s) := by
  obtain ⟨toks⟩ := s
  cases toks with
  | nil => exact absurd h (by simp [State.current, defaultToken])
  | cons t rest =>
    obtain ⟨k, sp⟩ := t
    have hk : k = .Try := h
    subst hk
    rfl

/-- C2: the `try` arm errors with `TryWithoutCatchOrFinally` at the span
of the `try` token exactly when the parsed catch list is empty and no
`finally` clause is present; any `Try` statement it returns has a
non-empty catch list or a `finally` block; at statement position a `try`
token dispatches to the `try` arm; and the example
`<?php try { f(); } finally { g(); }` parses to `Try` with no
catches and a `finally` holding the call to `g`. -/
theorem c2_try_without_catch_or_finally :
    (∀ fuel sp rest s1 body s2 s3 s4 s5 catches fb,
      lbrace ⟨rest⟩ = .ok s1 →
      block fuel .RightBrace [] s1 = .ok (body, s2) →
      rbrace s2 = .ok s3 →
      catchLoop fuel [] s3 = .ok (catches, s4) →
      finallyOpt fuel s4 = .ok (fb, s5) →
      (statementTry (fuel + 1) ⟨⟨.Try, sp⟩ :: rest⟩ =
          .error (.TryWithoutCatchOrFinally sp, s5)
        ↔ catches = [] ∧ fb = none))
  ∧ (∀ fuel s st s', statementTry fuel s = .ok (st, s') →
      ∀ b c f, st = .Try b c f → c ≠ [] ∨ f ≠ none)
  ∧ (∀ fuel s, s.current.kind = .Try →
      statement (fuel + 1) s = andSkipComments (statementTry fuel s))
  ∧ parse c2Tokens = .ok [.Try
      [.Expression (.Call (.Identifier (asciiBytes "f")) [])] []
      (some [.Expression (.Call (.Identifier (asciiBytes "g")) [])])] := by
  refine ⟨?_, ?_, ?_, by rfl⟩
  · intro fuel sp rest s1 body s2 s3 s4 s5 catches fb h1 h2 h3 h4 h5
    exact statementTry_err_iff fuel sp rest s1 body s2 s3 s4 s5 catches fb
      h1 h2 h3 h4 h5
  · intro fuel s st s' h
    exact statementTry_ok_inv fuel s st s' h
  · intro fuel s h
    exact statement_try_dispatch fuel s h

/-- Witness for C2 at concrete inputs: a bare `try { }` reaches the
error (both sides of the iff hold), a `try { } finally { }`
yields a `Try` whose `finally` is present, and `statement` on a `try`
token equals the dispatched form. -/
theorem c2_try_without_catch_or_finally_witness :
    ((statementTry 9 ⟨[⟨.Try, (0, 1)⟩, ⟨.LeftBrace, (1, 2)⟩,
        ⟨.RightBrace, (2, 3)⟩, ⟨.Eof, (3, 4)⟩]⟩ =
        .error (.TryWithoutCatchOrFinally (0, 1), ⟨[⟨.Eof, (3, 4)⟩]⟩))
      ↔ (([] : List Catch) = [] ∧
         (none : Option (List Statement)) = none))
  ∧ (([] : List Catch) ≠ [] ∨
     (some ([] : List Statement)) ≠ (none : Option (List Statement)))
  ∧ statement 10 ⟨[⟨.Try, (0, 1)⟩, ⟨.LeftBrace, (1, 2)⟩,
      ⟨.RightBrace, (2, 3)⟩, ⟨.Finally, (3, 4)⟩, ⟨.LeftBrace, (4, 5)⟩,
      ⟨.RightBrace, (5, 6)⟩, ⟨.Eof, (6, 7)⟩]⟩ =
      andSkipComments (statementTry 9 ⟨[⟨.Try, (0, 1)⟩, ⟨.LeftBrace, (1, 2)⟩,
        ⟨.RightBrace, (2, 3)⟩, ⟨.Finally, (3, 4)⟩, ⟨.LeftBrace, (4, 5)⟩,
        ⟨.RightBrace, (5, 6)⟩, ⟨.Eof, (6, 7)⟩]⟩) := by
  obtain ⟨ha, hb, hc, -⟩ := c2_try_without_catch_or_finally
  refine ⟨?_, ?_, ?_⟩
  · exact ha 8 (0, 1)
      [⟨.LeftBrace, (1, 2)⟩, ⟨.RightBrace, (2, 3)⟩, ⟨.Eof, (3, 4)⟩]
      ⟨[⟨.RightBrace, (2, 3)⟩, ⟨.Eof, (3, 4)⟩]⟩ []
      ⟨[⟨.RightBrace, (2, 3)⟩, ⟨.Eof, (3, 4)⟩]⟩
      ⟨[⟨.Eof, (3, 4)⟩]⟩ ⟨[⟨.Eof, (3, 4)⟩]⟩ ⟨[⟨.Eof, (3, 4)⟩]⟩ [] none
      rfl rfl rfl rfl rfl
  · exact hb 9 ⟨[⟨.Try, (0, 1)⟩, ⟨.LeftBrace, (1, 2)⟩,
      ⟨.RightBrace, (2, 3)⟩, ⟨.Finally, (3, 4)⟩, ⟨.LeftBrace, (4, 5)⟩,
      ⟨.RightBrace, (5, 6)⟩, ⟨.Eof, (6, 7)⟩]⟩
      (.Try [] [] (some [])) ⟨[⟨.Eof, (6, 7)⟩]⟩ rfl [] [] (some []) rfl
  · exact hc 9 ⟨[⟨.Try, (0, 1)⟩, ⟨.LeftBrace, (1, 2)⟩,
      ⟨.RightBrace, (2, 3)⟩, ⟨.Finally, (3, 4)⟩, ⟨.LeftBrace, (4, 5)⟩,
      ⟨.RightBrace, (5, 6)⟩, ⟨.Eof, (6, 7)⟩]⟩ rfl

/-- C6: at statement position a `function` token starts a named function
declaration exactly when the peek token is an identifier, `null`, or an
`&` itself followed by an identifier; otherwise the `function` is parsed
as an expression-statement holding an anonymous function. The guard
`functionPeekGuard` holds exactly for identifier, `null` and `&` peeks;
`isIdentifierKind` holds exactly for identifiers; `statement` dispatches
`function` through the guard; `statementFunction` chooses the named
declaration or the expression-statement by the token after the `&`; and
`<?php function &name() {} function () {};` parses to a
by-reference declaration named `name` followed by an expression-statement
holding a closure. -/
theorem c6_function_declaration_guard :
    (∀ k, functionPeekGuard k = true ↔
      ((∃ v, k = .Identifier v) ∨ k = .Null ∨ k = .Ampersand))
  ∧ (∀ k, isIdentifierKind k = true ↔ (∃ v, k = .Identifier v))
  ∧ (∀ fuel s, s.current.kind = .Function →
      statement (fuel + 1) s =
        (if functionPeekGuard s.peek.kind then statementFunction fuel s
         else andSkipComments (exprStatement fuel s)))
  ∧ (∀ fuel s t, s.peek.kind = .Ampersand → s.iterFirst = some t →
      isIdentifierKind t.kind = true →
      statementFunction (fuel + 1) s = andSkipComments (functionDecl fuel s))
  ∧ (∀ fuel s t, s.peek.kind = .Ampersand → s.iterFirst = some t →
      isIdentifierKind t.kind = false →
      statementFunction (fuel + 1) s = exprStatement fuel s)
  ∧ (∀ fuel s, (s.peek.kind == TokenKind.Ampersand) = false →
      statementFunction (fuel + 1) s = andSkipComments (functionDecl fuel s))
  ∧ parse c6Tokens = .ok
      [.FunctionStmt (asciiBytes "name") true [] [],
       .Expression (.Closure false [] [] [])] := by
  refine ⟨?_, ?_, ?_, ?_, ?_, ?_, by rfl⟩
  · intro k
    cases k <;> simp [functionPeekGuard]
  · intro k
    cases k <;> simp [isIdentifierKind]
  · intro fuel s h
    obtain ⟨toks⟩ := s
    cases toks with
    | nil => exact absurd h (by simp [State.current, defaultToken])
    | cons t rest =>
      obtain ⟨k, sp⟩ := t
      have hk : k = .Function := h
      subst hk
      rfl
  · intro fuel s t hp hi hid
    obtain ⟨toks⟩ := s
    cases toks with
    | nil => simp [State.iterFirst] at hi
    | cons a tl =>
      cases tl with
      | nil => simp [State.iterFirst] at hi
      | cons btok tl2 =>
        cases tl2 with
        | nil => simp [State.iterFirst] at hi
        | cons ctok tl3 =>
          have hc : ctok = t := by simpa [State.iterFirst] using hi
          subst hc
          obtain ⟨bk, bsp⟩ := btok
          have hbk : bk = .Ampersand := hp
          subst hbk
          rw [show statementFunction (fuel + 1)
              ⟨a :: ⟨.Ampersand, bsp⟩ :: ctok :: tl3⟩ =
              (if isIdentifierKind ctok.kind then
                andSkipComments (functionDecl fuel
                  ⟨a :: ⟨.Ampersand, bsp⟩ :: ctok :: tl3⟩)
               else exprStatement fuel
                  ⟨a :: ⟨.Ampersand, bsp⟩ :: ctok :: tl3⟩) from rfl]
          rw [hid]
          rfl
  · intro fuel s t hp hi hid
    obtain ⟨toks⟩ := s
    cases toks with
    | nil => simp [State.iterFirst] at hi
    | cons a tl =>
      cases tl with
      | nil => simp [State.iterFirst] at hi
      | cons btok tl2 =>
        cases tl2 with
        | nil => simp [State.iterFirst] at hi
        | cons ctok tl3 =>
          have hc : ctok = t := by simpa [State.iterFirst] using hi
          subst hc
          obtain ⟨bk, bsp⟩ := btok
          have hbk : bk = .Ampersand := hp
          subst hbk
          rw [show statementFunction (fuel + 1)
              ⟨a :: ⟨.Ampersand, bsp⟩ :: ctok :: tl3⟩ =
              (if isIdentifierKind ctok.kind then
                andSkipComments (functionDecl fuel
                  ⟨a :: ⟨.Ampersand, bsp⟩ :: ctok :: tl3⟩)
               else exprStatement fuel
                  ⟨a :: ⟨.Ampersand, bsp⟩ :: ctok :: tl3⟩) from rfl]
          rw [hid]
          rfl
  · intro fuel s h
    rw [statementFunction]
    rw [h]
    rfl

/-- Witness for C6 at concrete inputs: the `function` dispatch equation on
a concrete state, both branches of the `function &` lookahead, and the
non-`&` branch. -/
theorem c6_function_declaration_guard_witness :
    (statement 10 ⟨[⟨.Function, (0, 1)⟩, ⟨.Identifier (asciiBytes "f"), (1, 2)⟩]⟩ =
      (if functionPeekGuard (State.peek
          ⟨[⟨.Function, (0, 1)⟩, ⟨.Identifier (asciiBytes "f"), (1, 2)⟩]⟩).kind
       then statementFunction 9
          ⟨[⟨.Function, (0, 1)⟩, ⟨.Identifier (asciiBytes "f"), (1, 2)⟩]⟩
       else andSkipComments (exprStatement 9
          ⟨[⟨.Function, (0, 1)⟩, ⟨.Identifier (asciiBytes "f"), (1, 2)⟩]⟩)))
  ∧ (statementFunction 10 ⟨[⟨.Function, (0, 1)⟩, ⟨.Ampersand, (1, 2)⟩,
        ⟨.Identifier (asciiBytes "f"), (2, 3)⟩]⟩ =
      andSkipComments (functionDecl 9 ⟨[⟨.Function, (0, 1)⟩,
        ⟨.Ampersand, (1, 2)⟩, ⟨.Identifier (asciiBytes "f"), (2, 3)⟩]⟩))
  ∧ (statementFunction 10 ⟨[⟨.Function, (0, 1)⟩, ⟨.Ampersand, (1, 2)⟩,
        ⟨.LeftParen, (2, 3)⟩]⟩ =
      exprStatement 9 ⟨[⟨.Function, (0, 1)⟩, ⟨.Ampersand, (1, 2)⟩,
        ⟨.LeftParen, (2, 3)⟩]⟩)
  ∧ (statementFunction 10 ⟨[⟨.Function, (0, 1)⟩, ⟨.LeftParen, (1, 2)⟩]⟩ =
      andSkipComments (functionDecl 9
        ⟨[⟨.Function, (0, 1)⟩, ⟨.LeftParen, (1, 2)⟩]⟩)) := by
  obtain ⟨-, -, hb, hc1, hc2, hc3, -⟩ := c6_function_declaration_guard
  exact ⟨hb 9 _ rfl,
    hc1 9 _ ⟨.Identifier (asciiBytes "f"), (2, 3)⟩ rfl rfl rfl,
    hc2 9 _ ⟨.LeftParen, (2, 3)⟩ rfl rfl rfl,
    hc3 9 _ rfl⟩

end Php
